import Mathlib

/-!
Shallow embedding of the O3 neuron/signal/network propagation engine
(sources: src/synapse.cpp, src/neuron_gate.cpp, src/neuron.cpp,
src/network.cpp together with their headers).

Modelling conventions:
* C++ `float` arithmetic is modelled as exact rational arithmetic (`ℚ`);
  every value appearing in the verified scenarios is far from any
  comparison boundary, so rounding does not affect the outcomes.
* `std::shared_ptr<Neuron>` object identity is modelled by the neuron's
  identifier string; a `Heap` maps identifiers to neuron records and plays
  the role of the object store (the network registry in network-level
  operations).  Hypotheses of the theorems require the identifier keys to
  be duplicate-free, matching the uniqueness guaranteed by the registry.
* `Utils::generateUUID()` (the fresh identifier minted for derived
  signals) is modelled by a deterministic derived name; no verified claim
  depends on the value of a signal identifier.
* The key→text payload of a signal stores either raw text
  (`PValue.str`, written by the `std::string` overload of `setData`) or a
  number (`PValue.num`, written by the numeric overloads through
  `std::to_string`); the read side (`std::stof` under try/catch) recovers
  the number from a numeric entry and fails on raw text.
* Fire listeners are invoked inside `Neuron::fire` in a loop over the
  registered callbacks; the embedding records one `Event.fired` entry per
  registered callback in an event log, modelling listeners as observers.
  State-change listeners (observers of the REFRACTORY→RESTING flicker)
  are not recorded; only the final state of each call is modelled.
-/

def clamp01 (x : ℚ) : ℚ := min 1 (max 0 x)

inductive PValue where
  | str (s : String)
  | num (q : ℚ)
deriving DecidableEq

inductive SynapseType where
  | EXCITATORY
  | INHIBITORY
  | MODULATORY
deriving DecidableEq

/-- Association-list lookup keyed by strings (models map/unordered_map find). -/
def alookup {β : Type} : List (String × β) → String → Option β
  | [], _ => none
  | p :: ps, k => if p.1 = k then some p.2 else alookup ps k

/-- Update-or-append write (models `unordered_map::operator[] =`). -/
def payloadSet {β : Type} (m : List (String × β)) (k : String) (v : β) :
    List (String × β) :=
  if m.any (fun p => p.1 = k) then
    m.map (fun p => if p.1 = k then (k, v) else p)
  else
    m ++ [(k, v)]

/-- Signal record (class `Synapse`, synapse.h). -/
structure Synapse where
  id : String
  sourceId : String
  targetId : String
  stype : SynapseType
  strength : ℚ
  payload : List (String × PValue)
  tags : List String
deriving DecidableEq

/-- Constructor `Synapse::Synapse(id, type, strength)`: the strength is
clamped into [0,1] on construction (synapse.cpp lines 17-19). -/
def mkSynapse (id : String) (ty : SynapseType) (s : ℚ) : Synapse :=
  { id := id, sourceId := "", targetId := "", stype := ty,
    strength := min 1 (max 0 s), payload := [], tags := [] }

def Synapse.setStrength (s : Synapse) (v : ℚ) : Synapse :=
  { s with strength := min 1 (max 0 v) }

def Synapse.getStrength (s : Synapse) : ℚ := s.strength

def Synapse.setSourceId (s : Synapse) (v : String) : Synapse :=
  { s with sourceId := v }

def Synapse.setTargetId (s : Synapse) (v : String) : Synapse :=
  { s with targetId := v }

def Synapse.setData (s : Synapse) (k : String) (v : PValue) : Synapse :=
  { s with payload := payloadSet s.payload k v }

def Synapse.hasData (s : Synapse) (k : String) : Bool :=
  s.payload.any (fun p => p.1 = k)

def Synapse.addTag (s : Synapse) (t : String) : Synapse :=
  if t ∈ s.tags then s else { s with tags := s.tags ++ [t] }

def Synapse.hasTag (s : Synapse) (t : String) : Bool := t ∈ s.tags

/-- `Synapse::derive` (synapse.cpp lines 83-101): fresh id, same type,
chosen strength when the argument is ≥ 0 else the current strength
(clamped again by the constructor), copied source/target/tags, and a
fresh payload holding only the provenance entry. -/
def Synapse.derive (s : Synapse) (newId : String) (ds : ℚ) : Synapse :=
  let newStrength := if 0 ≤ ds then ds else s.strength
  let d := mkSynapse newId s.stype newStrength
  let d := d.setSourceId s.sourceId
  let d := d.setTargetId s.targetId
  let d := s.tags.foldl (fun acc t => acc.addTag t) d
  d.setData "derived_from" (PValue.str s.id)

/-- `Synapse::combine` (synapse.cpp lines 103-159). -/
def Synapse.combine (s other : Synapse) : Synapse :=
  let combinedStrength := (s.strength + other.strength) / 2
  let c := mkSynapse (s.id ++ "+" ++ other.id) s.stype combinedStrength
  let c := c.setSourceId s.sourceId
  let c := c.setTargetId other.targetId
  let c := s.tags.foldl (fun acc t => acc.addTag t) c
  let c := other.tags.foldl (fun acc t => acc.addTag t) c
  let c := c.setData "combined_from_1" (PValue.str s.id)
  let c := c.setData "combined_from_2" (PValue.str other.id)
  let reserved := fun (k : String) => k = "source" ∨ k = "target" ∨ k = "strength"
  let c := s.payload.foldl
    (fun acc p => if reserved p.1 then acc else acc.setData (p.1 ++ "_1") p.2) c
  other.payload.foldl
    (fun acc p => if reserved p.1 then acc else acc.setData (p.1 ++ "_2") p.2) c

/-- Strength as read by the engine from the `"strength"` payload entry
(neuron.cpp lines 222-236 and 283-291): default 0.5 when the entry is
absent, `std::stof` of the stored text otherwise, keeping the default
when parsing fails. -/
def payloadStrength (s : Synapse) : ℚ :=
  match alookup s.payload "strength" with
  | some (PValue.num q) => q
  | some (PValue.str _) => 1/2
  | none => 1/2

/-- Gate policy kinds (neuron_gate.h); the CUSTOM kind carries the
injected transform function. -/
inductive GateKind where
  | AND
  | OR
  | NOT
  | XOR
  | THRESHOLD
  | MODULATOR
  | CUSTOM (f : List Synapse → Option Synapse)

/-- Gate record (class `NeuronGate`): identifier, kind, threshold,
active flag, adaptation rate, and the modulation factor used by the
MODULATOR kind (field of `ModulatorGate`). -/
structure Gate where
  id : String
  kind : GateKind
  threshold : ℚ
  active : Bool
  adaptationRate : ℚ
  factor : ℚ

/-- `NeuronGate::adapt` (neuron_gate.cpp lines 36-45). -/
def Gate.adapt (g : Gate) (success : Bool) : Gate :=
  if success then { g with threshold := max (1/10) (g.threshold - g.adaptationRate) }
  else { g with threshold := min (9/10) (g.threshold + g.adaptationRate) }

/-- `AndGate::process` (neuron_gate.cpp lines 61-101): activates only when
every input's strength is at or above the gate threshold; the output is
derived from the first input with its strength set to the arithmetic mean
of all input strengths, stamped with gate metadata. -/
def AndGate.process (gid : String) (thr : ℚ) (inputs : List Synapse) :
    Option Synapse :=
  match inputs with
  | [] => none
  | i0 :: _ =>
    if inputs.all (fun i => ¬ (i.strength < thr)) then
      let result := i0.derive (i0.id ++ "_d") (-1)
      let total := (inputs.map Synapse.strength).sum
      let avg := total / (inputs.length : ℚ)
      let result := result.setStrength avg
      let result := result.setData "gate_id" (PValue.str gid)
      let result := result.setData "gate_type" (PValue.str "AND")
      some (result.addTag "gate_processed")
    else none

/-- `OrGate::process` (neuron_gate.cpp lines 109-142): scans for the
strongest input at or above the threshold (strict improvement over a
running maximum that starts at 0) and derives the output from it. -/
def OrGate.process (gid : String) (thr : ℚ) (inputs : List Synapse) :
    Option Synapse :=
  let best := inputs.foldl
    (fun (acc : Option Synapse × ℚ) i =>
      if thr ≤ i.strength ∧ acc.2 < i.strength then (some i, i.strength) else acc)
    (none, 0)
  match best.1 with
  | none => none
  | some s =>
    let result := s.derive (s.id ++ "_d") (-1)
    let result := result.setData "gate_id" (PValue.str gid)
    let result := result.setData "gate_type" (PValue.str "OR")
    some (result.addTag "gate_processed")

/-- `NotGate::process` (neuron_gate.cpp lines 150-168). -/
def NotGate.process (gid : String) (inputs : List Synapse) : Option Synapse :=
  match inputs with
  | [] => none
  | i0 :: _ =>
    let result := i0.derive (i0.id ++ "_d") (-1)
    let result := result.setStrength (1 - i0.strength)
    let result := result.setData "gate_id" (PValue.str gid)
    let result := result.setData "gate_type" (PValue.str "NOT")
    some (result.addTag "gate_processed")

/-- `XorGate::process` (neuron_gate.cpp lines 176-207): requires exactly
two inputs; activates iff exactly one of them is at or above the
threshold; the output is derived from the above-threshold input with its
strength set to the absolute difference of the two strengths. -/
def XorGate.process (gid : String) (thr : ℚ) (inputs : List Synapse) :
    Option Synapse :=
  match inputs with
  | [s1, s2] =>
    let a1 : Bool := decide (thr ≤ s1.strength)
    let a2 : Bool := decide (thr ≤ s2.strength)
    if (a1 && !a2) || (!a1 && a2) then
      let base := if a1 then s1 else s2
      let result := base.derive (base.id ++ "_d") (-1)
      let result := result.setStrength |s1.strength - s2.strength|
      let result := result.setData "gate_id" (PValue.str gid)
      let result := result.setData "gate_type" (PValue.str "XOR")
      some (result.addTag "gate_processed")
    else none
  | _ => none

/-- `ThresholdGate::process` (neuron_gate.cpp lines 216-241). -/
def ThresholdGate.process (gid : String) (thr : ℚ) (inputs : List Synapse) :
    Option Synapse :=
  match inputs with
  | [] => none
  | i0 :: _ =>
    if thr ≤ i0.strength then
      let result := i0.derive (i0.id ++ "_d") (-1)
      let result := result.setStrength i0.strength
      let result := result.setData "gate_id" (PValue.str gid)
      let result := result.setData "gate_type" (PValue.str "THRESHOLD")
      some (result.addTag "gate_processed")
    else none

/-- `ModulatorGate::process` (neuron_gate.cpp lines 249-268). -/
def ModulatorGate.process (gid : String) (factor : ℚ) (inputs : List Synapse) :
    Option Synapse :=
  match inputs with
  | [] => none
  | i0 :: _ =>
    let result := i0.derive (i0.id ++ "_d") (-1)
    let result := result.setStrength (min 1 (max 0 (i0.strength * factor)))
    let result := result.setData "gate_id" (PValue.str gid)
    let result := result.setData "gate_type" (PValue.str "MODULATOR")
    let result := result.setData "modulation_factor" (PValue.num factor)
    some (result.addTag "gate_processed")

/-- `CustomGate::process` (neuron_gate.cpp lines 285-297). -/
def CustomGate.process (gid : String) (f : List Synapse → Option Synapse)
    (inputs : List Synapse) : Option Synapse :=
  match f inputs with
  | none => none
  | some r =>
    let r := r.setData "gate_id" (PValue.str gid)
    let r := r.setData "gate_type" (PValue.str "CUSTOM")
    some (r.addTag "gate_processed")

/-- Virtual dispatch of `NeuronGate::process` over the gate kinds. -/
def Gate.process (g : Gate) (inputs : List Synapse) : Option Synapse :=
  match g.kind with
  | GateKind.AND => AndGate.process g.id g.threshold inputs
  | GateKind.OR => OrGate.process g.id g.threshold inputs
  | GateKind.NOT => NotGate.process g.id inputs
  | GateKind.XOR => XorGate.process g.id g.threshold inputs
  | GateKind.THRESHOLD => ThresholdGate.process g.id g.threshold inputs
  | GateKind.MODULATOR => ModulatorGate.process g.id g.factor inputs
  | GateKind.CUSTOM f => CustomGate.process g.id f inputs

inductive NeuronState where
  | RESTING
  | ACTIVE
  | REFRACTORY
  | INHIBITED
deriving DecidableEq

inductive NeuronType where
  | SENSORY
  | PROCESSING
  | MEMORY
  | INTEGRATION
  | ASSOCIATION
  | OUTPUT
  | REGULATORY
deriving DecidableEq

/-- Neuron record (neuron.h private fields): activation state, threshold,
accumulating potential, owned gates, outgoing weighted edges keyed by the
target's identifier, incoming back-reference identifiers, the two signal
buffers, tags, metadata, and the number of registered fire listeners. -/
structure Neuron where
  id : String
  ntype : NeuronType
  state : NeuronState
  threshold : ℚ
  potential : ℚ
  gates : List Gate
  connections : List (String × ℚ)
  inputs : List String
  inputSignals : List Synapse
  outputSignals : List Synapse
  tags : List String
  metadata : List (String × String)
  fireCallbacks : Nat

/-- `Neuron::Neuron` (neuron.cpp lines 17-57): initial state RESTING,
potential 0, threshold selected by type, and the type tag added. -/
def mkNeuron (id : String) (ty : NeuronType) : Neuron :=
  let thr : ℚ :=
    match ty with
    | NeuronType.SENSORY => 3/10
    | NeuronType.MEMORY => 7/10
    | NeuronType.REGULATORY => 4/10
    | _ => 1/2
  let typeTag :=
    match ty with
    | NeuronType.SENSORY => "sensory"
    | NeuronType.PROCESSING => "processing"
    | NeuronType.MEMORY => "memory"
    | NeuronType.INTEGRATION => "integration"
    | NeuronType.ASSOCIATION => "association"
    | NeuronType.OUTPUT => "output"
    | NeuronType.REGULATORY => "regulatory"
  { id := id, ntype := ty, state := NeuronState.RESTING, threshold := thr,
    potential := 0, gates := [], connections := [], inputs := [],
    inputSignals := [], outputSignals := [], tags := [typeTag],
    metadata := [], fireCallbacks := 0 }

/-- `Neuron::setThreshold` (neuron.cpp lines 105-109). -/
def Neuron.setThreshold (n : Neuron) (t : ℚ) : Neuron :=
  { n with threshold := min 1 (max 0 t) }

/-- `Neuron::getConnectionWeight` (neuron.cpp lines 384-390): weight of
the edge to the given target, 0 when no such edge exists. -/
def Neuron.getConnectionWeight (n : Neuron) (tgtId : String) : ℚ :=
  match alookup n.connections tgtId with
  | some w => w
  | none => 0

/-- `Neuron::reset` (neuron.cpp lines 401-406): zero the potential, go
back to RESTING, and clear both signal buffers. -/
def Neuron.resetOne (n : Neuron) : Neuron :=
  { n with potential := 0, state := NeuronState.RESTING,
           inputSignals := [], outputSignals := [] }

/-- Gate pipeline step of `Neuron::processSignals` (neuron.cpp lines
192-214): the first active gate whose `process` yields a result claims
the signal; otherwise the signal passes through unchanged. -/
def gatePass : List Gate → Synapse → Synapse
  | [], s => s
  | g :: gs, s =>
    if g.active then
      match g.process [s] with
      | some r => r
      | none => gatePass gs s
    else gatePass gs s

inductive Event where
  | fired (nid : String)
  | netRun (netId : String)
deriving DecidableEq

/-- Object store for neurons plus the observer event log. -/
structure Heap where
  neurons : List (String × Neuron)
  events : List Event

/-- Replace the record stored under a key (mutation of the object the
pointer refers to; no entry is created when the key is absent). -/
def aset {β : Type} (l : List (String × β)) (k : String) (v : β) :
    List (String × β) :=
  l.map (fun p => if p.1 = k then (k, v) else p)

def hSet (h : Heap) (k : String) (n : Neuron) : Heap :=
  { h with neurons := aset h.neurons k n }

/-- Default output signal synthesized by `Neuron::fire` when no processed
output exists (neuron.cpp lines 268-274): id `<neuron>_output`, default
type and strength, and payload entries for the source id and the current
potential. -/
def defaultOutput (n : Neuron) : Synapse :=
  let s := mkSynapse (n.id ++ "_output") SynapseType.EXCITATORY 1
  let s := s.setData "source" (PValue.str n.id)
  s.setData "strength" (PValue.num n.potential)

/-- Weighted copy built by `Neuron::fire` for one outgoing edge and one
output signal (neuron.cpp lines 279-304): derive a copy, multiply the
payload-read strength (default 0.5) by the edge weight — without any
clamping — and stamp the `from`/`to` metadata. -/
def weightedCopy (srcId tgtId : String) (w : ℚ) (s : Synapse) : Synapse :=
  let weighted := s.derive (s.id ++ "_d") (-1)
  let strength := payloadStrength s
  let strength := strength * w
  let weighted := weighted.setData "strength" (PValue.num strength)
  let weighted := weighted.setData "from" (PValue.str srcId)
  weighted.setData "to" (PValue.str tgtId)

/-- Output list used by `Neuron::fire`: the stored output signals, or the
single synthesized default when none exist. -/
def fireOuts (n : Neuron) : List Synapse :=
  if n.outputSignals.isEmpty then [defaultOutput n] else n.outputSignals

/-- The deliveries performed by one `Neuron::fire` call, in loop order:
for every outgoing edge and every output signal, one weighted copy
addressed to the edge's target (neuron.cpp lines 277-306). -/
def fireDeliveries (n : Neuron) : List (String × Synapse) :=
  n.connections.flatMap
    (fun tw => (fireOuts n).map (fun s => (tw.1, weightedCopy n.id tw.1 tw.2 s)))

/-!
Recursive synchronous propagation (neuron.cpp lines 164-313),
fuel-bounded: `none` means the fuel bound was reached (the C++ code would
still be recursing); `some` is the completed run.  `receiveSignalF`
appends the signal to the buffer and immediately processes;
`processSignalsF` drops the call in REFRACTORY/INHIBITED states, runs the
gate pipeline, folds the mean contribution into the clamped potential,
fires when the threshold is reached (REFRACTORY is set and immediately
reset to RESTING within the same call), and stores the processed signals
as outputs; `fireF` synthesizes the default signal if needed, delivers
every weighted copy through `receiveSignalF`, and then runs the fire
listeners (recorded as one event per registered listener).
-/
mutual

def receiveSignalF : Nat → Heap → String → Synapse → Option Heap
  | 0, _, _, _ => none
  | Nat.succ fuel, h, nid, s =>
    match alookup h.neurons nid with
    | none => some h
    | some n =>
      processSignalsF fuel (hSet h nid { n with inputSignals := n.inputSignals ++ [s] }) nid

def processSignalsF : Nat → Heap → String → Option Heap
  | 0, _, _ => none
  | Nat.succ fuel, h, nid =>
    match alookup h.neurons nid with
    | none => some h
    | some n =>
      if n.state = NeuronState.REFRACTORY ∨ n.state = NeuronState.INHIBITED then
        some h
      else if n.inputSignals.isEmpty then some h
      else
        let processed := n.inputSignals.map (gatePass n.gates)
        let cnt : ℚ := if 0 < processed.length then (processed.length : ℚ) else 1
        let delta := (processed.map payloadStrength).sum
        let pot := clamp01 (n.potential + delta / cnt)
        let h2 := hSet h nid { n with inputSignals := [], potential := pot }
        if n.threshold ≤ pot then
          match fireF fuel h2 nid with
          | none => none
          | some h3 =>
            match alookup h3.neurons nid with
            | none => some h3
            | some n3 =>
              some (hSet h3 nid
                { n3 with state := NeuronState.RESTING, potential := 0,
                          outputSignals := n3.outputSignals ++ processed })
        else
          some (hSet h2 nid
            { n with inputSignals := [], potential := pot,
                     outputSignals := n.outputSignals ++ processed })

def fireF : Nat → Heap → String → Option Heap
  | 0, _, _ => none
  | Nat.succ fuel, h, nid =>
    match alookup h.neurons nid with
    | none => some h
    | some n =>
      let h1 := hSet h nid { n with outputSignals := fireOuts n }
      match deliverAll fuel h1 (fireDeliveries n) with
      | none => none
      | some h2 =>
        match alookup h2.neurons nid with
        | none => some h2
        | some n2 =>
          some { h2 with
            events := h2.events ++ List.replicate n2.fireCallbacks (Event.fired nid) }

def deliverAll : Nat → Heap → List (String × Synapse) → Option Heap
  | _, h, [] => some h
  | 0, _, _ :: _ => none
  | Nat.succ fuel, h, d :: ds =>
    match receiveSignalF fuel h d.1 d.2 with
    | none => none
    | some h1 => deliverAll fuel h1 ds

end

/-- `Neuron::connectTo` (neuron.cpp lines 115-134) on the object store:
null or self targets are rejected; an existing edge only has its weight
updated; a new edge is appended to the source's outgoing map and the
source is pushed onto the target's incoming back-references. -/
def heapConnect (h : Heap) (srcId tgtId : String) (w : ℚ) : Heap × Bool :=
  match alookup h.neurons srcId, alookup h.neurons tgtId with
  | some src, some _ =>
    if tgtId = srcId then (h, false)
    else
      match alookup src.connections tgtId with
      | some _ =>
        (hSet h srcId { src with connections := aset src.connections tgtId w }, true)
      | none =>
        let h1 := hSet h srcId { src with connections := src.connections ++ [(tgtId, w)] }
        match alookup h1.neurons tgtId with
        | none => (h1, true)
        | some tgt => (hSet h1 tgtId { tgt with inputs := tgt.inputs ++ [srcId] }, true)
  | _, _ => (h, false)

/-- `Neuron::disconnectFrom` (neuron.cpp lines 136-162) on the object
store: fails on a null target or a missing edge; otherwise erases the
edge from the source's outgoing map and removes every occurrence of the
source from the target's incoming back-references. -/
def heapDisconnect (h : Heap) (srcId tgtId : String) : Heap × Bool :=
  match alookup h.neurons srcId, alookup h.neurons tgtId with
  | some src, some _ =>
    match alookup src.connections tgtId with
    | none => (h, false)
    | some _ =>
      let h1 := hSet h srcId
        { src with connections := src.connections.filter (fun p => ¬ (p.1 = tgtId)) }
      match alookup h1.neurons tgtId with
      | none => (h1, true)
      | some tgt =>
        (hSet h1 tgtId { tgt with inputs := tgt.inputs.filter (fun x => ¬ (x = srcId)) },
         true)
  | _, _ => (h, false)

/-- Kinds of registered network process callbacks: a pure observer (its
invocation is logged) or a callback that re-enters `processSignals` on
the same network, as the reentrancy claim contemplates. -/
inductive NetCallback where
  | obs
  | reenter
deriving DecidableEq

/-- Network record (network.h): identifier, neuron registry (the object
store), designated input/output identifier lists, the processing
reentrancy flag, and the registered process callbacks. -/
structure Network where
  id : String
  heap : Heap
  inputNeurons : List String
  outputNeurons : List String
  processing : Bool
  callbacks : List NetCallback

/-- Output-disconnect loop of `Network::removeNeuron` (network.cpp lines
91-94): disconnect the doomed neuron from each of its targets. -/
def disconnectFold (h : Heap) (srcId : String) (ts : List String) : Heap :=
  ts.foldl (fun acc t => (heapDisconnect acc srcId t).1) h

/-- Input-disconnect loop of `Network::removeNeuron` (network.cpp lines
97-100): disconnect each surviving input neuron from the doomed one. -/
def disconnectFromFold (h : Heap) (nid : String) (xs : List String) : Heap :=
  xs.foldl (fun acc x => (heapDisconnect acc x nid).1) h

/-- `Network::removeNeuron` (network.cpp lines 80-117): fail when the id
is not registered; otherwise sever all outgoing edges, then all incoming
edges (from the still-alive back-referenced neurons), drop the neuron
from the input/output lists, and erase it from the registry. -/
def Network.removeNeuron (net : Network) (nid : String) : Network × Bool :=
  match alookup net.heap.neurons nid with
  | none => (net, false)
  | some n =>
    let outs := n.connections.map Prod.fst
    let h1 := disconnectFold net.heap nid outs
    let n1 := match alookup h1.neurons nid with
              | some m => m
              | none => n
    let ins := n1.inputs.filter (fun x => (alookup h1.neurons x).isSome)
    let h2 := disconnectFromFold h1 nid ins
    let heap3 := { h2 with neurons := h2.neurons.filter (fun p => ¬ (p.1 = nid)) }
    ({ net with heap := heap3,
                inputNeurons := net.inputNeurons.filter (fun x => ¬ (x = nid)),
                outputNeurons := net.outputNeurons.filter (fun x => ¬ (x = nid)) },
     true)

/-- `Network::reset` (network.cpp lines 219-225): every registered neuron
is set back to RESTING, and nothing else is touched. -/
def Network.resetN (net : Network) : Network :=
  { net with heap :=
      { net.heap with neurons :=
          net.heap.neurons.map (fun p => (p.1, { p.2 with state := NeuronState.RESTING })) } }

/-- Neuron-processing loop over a list of registry identifiers, used by
the three stages of `Network::processSignals`. -/
def processNeuronList : Nat → Heap → List String → Option Heap
  | _, h, [] => some h
  | 0, _, _ :: _ => none
  | Nat.succ fuel, h, nid :: rest =>
    match processSignalsF fuel h nid with
    | none => none
    | some h1 => processNeuronList fuel h1 rest

/-!
`Network::processSignals` (network.cpp lines 182-217): an exchange-based
reentrancy guard drops the call when one is already in flight; otherwise
the registry is snapshotted, the input-layer neurons are processed, then
every registered neuron in neither the input nor the output list, then
the output-layer neurons, then the registered process callbacks run
(re-entrant callbacks call `processSignals` again and hit the guard),
and finally the flag is cleared.
-/
mutual

def networkProcessSignals : Nat → Network → Option Network
  | fuel, net =>
    if net.processing then some net
    else
      match fuel with
      | 0 => none
      | Nat.succ fuel =>
        let net1 : Network := { net with processing := true }
        let allIds := net1.heap.neurons.map Prod.fst
        match processNeuronList fuel net1.heap net1.inputNeurons with
        | none => none
        | some h1 =>
          let mids := allIds.filter
            (fun k => ¬ (k ∈ net1.inputNeurons ∨ k ∈ net1.outputNeurons))
          match processNeuronList fuel h1 mids with
          | none => none
          | some h2 =>
            match processNeuronList fuel h2 net1.outputNeurons with
            | none => none
            | some h3 =>
              match runNetCallbacks fuel { net1 with heap := h3 } net1.callbacks with
              | none => none
              | some net2 => some { net2 with processing := false }

def runNetCallbacks : Nat → Network → List NetCallback → Option Network
  | _, net, [] => some net
  | 0, _, _ :: _ => none
  | Nat.succ fuel, net, cb :: cbs =>
    match cb with
    | NetCallback.obs =>
      runNetCallbacks fuel
        { net with heap :=
            { net.heap with events := net.heap.events ++ [Event.netRun net.id] } }
        cbs
    | NetCallback.reenter =>
      match networkProcessSignals fuel net with
      | none => none
      | some net1 => runNetCallbacks fuel net1 cbs

end

/-! Projections used to state concrete-run theorems. -/

def neuronAt (oh : Option Heap) (k : String) : Option Neuron :=
  match oh with
  | none => none
  | some h => alookup h.neurons k

def stateAt (oh : Option Heap) (k : String) : Option NeuronState :=
  match neuronAt oh k with
  | none => none
  | some n => some n.state

def potentialAt (oh : Option Heap) (k : String) : Option ℚ :=
  match neuronAt oh k with
  | none => none
  | some n => some n.potential

def firedCount (oh : Option Heap) (k : String) : Option Nat :=
  match oh with
  | none => none
  | some h => some (h.events.count (Event.fired k))

def outStrengthsAt (oh : Option Heap) (k : String) : Option (List ℚ) :=
  match neuronAt oh k with
  | none => none
  | some n => some (n.outputSignals.map payloadStrength)

def connectionsAt (oh : Option Heap) (k : String) : Option (List (String × ℚ)) :=
  match neuronAt oh k with
  | none => none
  | some n => some n.connections

def inputsAt (oh : Option Heap) (k : String) : Option (List String) :=
  match neuronAt oh k with
  | none => none
  | some n => some n.inputs

/-! Concrete fixtures for the scenario claims.  Stimulus signals carry
their strength both in the `Synapse` strength field and in the
`"strength"` payload entry, which is the representation the engine's
potential/weighting logic reads (neuron.cpp lines 222-236). -/

/-- Stimulus signal of a given strength. -/
def stim (id : String) (q : ℚ) : Synapse :=
  (mkSynapse id SynapseType.EXCITATORY q).setData "strength" (PValue.num q)

/-- Threshold-0.5 neuron with one registered fire listener. -/
def c1Neuron : Neuron :=
  { mkNeuron "n1" NeuronType.PROCESSING with fireCallbacks := 1 }

def c1Heap : Heap := { neurons := [("n1", c1Neuron)], events := [] }

/-- First stimulus: strength 0.2. -/
def c1run1 : Option Heap := receiveSignalF 10 c1Heap "n1" (stim "s1" (2/10))

/-- Second stimulus: strength 0.4, raising the potential to 0.6 ≥ 0.5. -/
def c1run2 : Option Heap :=
  c1run1.bind (fun h => receiveSignalF 10 h "n1" (stim "s2" (4/10)))

/-- Two-neuron network A→B (weight 0.9) with a fire listener on each. -/
def c2aN : Neuron := { mkNeuron "a" NeuronType.PROCESSING with fireCallbacks := 1 }

def c2bN : Neuron := { mkNeuron "b" NeuronType.PROCESSING with fireCallbacks := 1 }

def c2Heap : Heap :=
  { neurons := [("a", c2aN), ("b", c2bN)], events := [] }

def c2HeapConnected : Heap := (heapConnect c2Heap "a" "b" (9/10)).1

def c2run : Option Heap := receiveSignalF 20 c2HeapConnected "a" (stim "sig" (9/10))

/-- Same two-neuron network but with edge weight 2 (edge weights are not
constrained by the engine), used to exhibit the missing clamp. -/
def cxHeapConnected : Heap := (heapConnect c2Heap "a" "b" 2).1

def cxRun : Option Heap := receiveSignalF 20 cxHeapConnected "a" (stim "sig" (9/10))

/-- Gate-scenario inputs (strength carried in the Synapse strength field,
which is what the gate layer reads through `getStrength`). -/
def c4sigA : Synapse := mkSynapse "p1" SynapseType.EXCITATORY (9/10)

def c4sigB : Synapse := mkSynapse "p2" SynapseType.EXCITATORY (9/10)

def c4sigC : Synapse := mkSynapse "p3" SynapseType.EXCITATORY (3/10)

def c5sigA : Synapse := mkSynapse "q1" SynapseType.EXCITATORY (8/10)

def c5sigB : Synapse := mkSynapse "q2" SynapseType.EXCITATORY (2/10)

def c5sigC : Synapse := mkSynapse "q3" SynapseType.EXCITATORY (1/10)

/-- Neuron with one outgoing edge and one stored output signal, used to
instantiate the per-edge delivery facts. -/
def c2n : Neuron :=
  { c2aN with connections := [("b", 9/10)], outputSignals := [stim "s" (9/10)] }

/-- Pair of neurons with the edge a→b (weight 0.7) already present, the
state produced by `connectTo(A, B, 0.7)`. -/
def c7aN : Neuron := { c2aN with connections := [("b", 7/10)] }

def c7bN : Neuron := { c2bN with inputs := ["a"] }

def c7Heap : Heap := { neurons := [("a", c7aN), ("b", c7bN)], events := [] }

/-- Three-neuron network with edges a→b, b→c and c→b, whose symmetric
back-references satisfy `heapWF`; used to exercise `removeNeuron "b"`. -/
def c8a : Neuron := { mkNeuron "a" NeuronType.PROCESSING with connections := [("b", 1/2)] }

def c8b : Neuron :=
  { mkNeuron "b" NeuronType.PROCESSING with
      connections := [("c", 1/5)], inputs := ["a", "c"] }

def c8c : Neuron :=
  { mkNeuron "c" NeuronType.PROCESSING with
      connections := [("b", 7/10)], inputs := ["b"] }

def c8Net : Network :=
  { id := "net8",
    heap := { neurons := [("a", c8a), ("b", c8b), ("c", c8c)], events := [] },
    inputNeurons := ["a", "b"], outputNeurons := ["c"],
    processing := false, callbacks := [] }

/-- Network whose reentrancy flag is set, as during an in-flight
`processSignals` call; its callback list contains a re-entrant callback. -/
def c9Net : Network :=
  { id := "net9", heap := c2Heap, inputNeurons := ["a"], outputNeurons := ["b"],
    processing := false, callbacks := [NetCallback.reenter, NetCallback.obs] }

def c9NetBusy : Network := { c9Net with processing := true }

/-- Network used to instantiate the reset frame facts. -/
def c10Net : Network :=
  { id := "net10", heap := c2Heap, inputNeurons := ["a"], outputNeurons := ["b"],
    processing := false, callbacks := [NetCallback.obs] }

/-- Well-formedness of the object store, as established by the engine's
own bookkeeping: duplicate-free registry keys (ids are unique within a
network), duplicate-free edge keys (std::map), no self-loops (rejected by
`connectTo`), and the symmetric edge/back-reference invariant maintained
by `connectTo`/`disconnectFrom`. -/
def heapWF (h : Heap) : Prop :=
  (h.neurons.map Prod.fst).Nodup ∧
  (∀ p ∈ h.neurons, (p.2.connections.map Prod.fst).Nodup) ∧
  (∀ p ∈ h.neurons, ¬ p.1 ∈ p.2.connections.map Prod.fst ∧ ¬ p.1 ∈ p.2.inputs) ∧
  (∀ p ∈ h.neurons, ∀ q ∈ h.neurons,
    (q.1 ∈ p.2.connections.map Prod.fst → p.1 ∈ q.2.inputs) ∧
    (q.1 ∈ p.2.inputs → p.1 ∈ q.2.connections.map Prod.fst))

instance (h : Heap) : Decidable (heapWF h) := by
  unfold heapWF; infer_instance

section ListLemmas

variable {β : Type}

lemma alookup_aset_self (l : List (String × β)) (k : String) (v : β) :
    alookup (aset l k v) k = (alookup l k).map (fun _ => v) := by
  induction l with
  | nil => rfl
  | cons p ps ih =>
    by_cases hp : p.1 = k
    · simp [aset, alookup, hp]
    · simp only [aset, List.map_cons, if_neg hp, alookup, hp, if_false]
      exact ih

lemma alookup_aset_ne (l : List (String × β)) (k k' : String) (v : β)
    (hne : ¬ k' = k) : alookup (aset l k v) k' = alookup l k' := by
  induction l with
  | nil => rfl
  | cons p ps ih =>
    have hk : ¬ k = k' := fun h => hne h.symm
    by_cases hp : p.1 = k
    · have hpk' : ¬ p.1 = k' := by rw [hp]; exact hk
      simp only [aset, List.map_cons, if_pos hp, alookup, if_neg hk, if_neg hpk']
      simpa only [aset] using ih
    · simp only [aset, List.map_cons, if_neg hp, alookup]
      by_cases hp' : p.1 = k'
      · simp [hp']
      · simp only [if_neg hp']
        simpa only [aset] using ih

lemma map_fst_aset (l : List (String × β)) (k : String) (v : β) :
    (aset l k v).map Prod.fst = l.map Prod.fst := by
  induction l with
  | nil => rfl
  | cons p ps ih =>
    simp only [aset, List.map_cons] at ih ⊢
    by_cases hp : p.1 = k
    · rw [if_pos hp]
      simp [ih, hp]
    · rw [if_neg hp]
      simp [ih]

lemma alookup_eq_none_iff (l : List (String × β)) (k : String) :
    alookup l k = none ↔ ¬ k ∈ l.map Prod.fst := by
  induction l with
  | nil => simp [alookup]
  | cons p ps ih =>
    by_cases hp : p.1 = k
    · simp [alookup, hp]
    · simp only [alookup, hp, if_false, List.map_cons, List.mem_cons, ih]
      constructor
      · rintro h (h1 | h2)
        · exact hp h1.symm
        · exact h h2
      · intro h h2
        exact h (Or.inr h2)

lemma alookup_isSome_of_mem_keys (l : List (String × β)) (k : String)
    (h : k ∈ l.map Prod.fst) : ∃ v, alookup l k = some v := by
  cases hv : alookup l k with
  | none => exact absurd h ((alookup_eq_none_iff l k).mp hv)
  | some v => exact ⟨v, rfl⟩

lemma mem_of_alookup (l : List (String × β)) (k : String) (v : β)
    (h : alookup l k = some v) : (k, v) ∈ l := by
  induction l with
  | nil => simp [alookup] at h
  | cons p ps ih =>
    by_cases hp : p.1 = k
    · simp only [alookup, if_pos hp] at h
      obtain ⟨p1, p2⟩ := p
      obtain rfl := hp
      obtain rfl : p2 = v := Option.some.inj h
      exact List.mem_cons_self _ _
    · simp only [alookup, if_neg hp] at h
      exact List.mem_cons_of_mem _ (ih h)

lemma alookup_of_mem (l : List (String × β)) (p : String × β)
    (hnd : (l.map Prod.fst).Nodup) (hp : p ∈ l) : alookup l p.1 = some p.2 := by
  induction l with
  | nil => simp at hp
  | cons q qs ih =>
    rcases List.mem_cons.mp hp with rfl | hmem
    · simp [alookup]
    · have hq : ¬ q.1 = p.1 := by
        intro hq
        have : p.1 ∈ qs.map Prod.fst := List.mem_map_of_mem Prod.fst hmem
        rw [← hq] at this
        exact (List.nodup_cons.mp hnd).1 this
      simp only [alookup, if_neg hq]
      exact ih (List.nodup_cons.mp hnd).2 hmem

lemma alookup_filter_self (l : List (String × β)) (k : String) :
    alookup (l.filter (fun p => ¬ (p.1 = k))) k = none := by
  rw [alookup_eq_none_iff]
  intro hmem
  obtain ⟨p, hp, hpk⟩ := List.mem_map.mp hmem
  have := (List.mem_filter.mp hp).2
  rw [hpk] at this
  simp at this

lemma alookup_filter_ne (l : List (String × β)) (k k' : String)
    (hne : ¬ k' = k) :
    alookup (l.filter (fun p => ¬ (p.1 = k))) k' = alookup l k' := by
  induction l with
  | nil => rfl
  | cons p ps ih =>
    simp only [List.filter_cons, decide_eq_true_eq]
    by_cases hp : p.1 = k
    · rw [if_neg (by simp [hp])]
      have hp' : ¬ p.1 = k' := by rw [hp]; exact fun h => hne h.symm
      rw [ih]
      simp [alookup, hp']
    · rw [if_pos (by simpa using hp)]
      simp only [alookup]
      by_cases hp' : p.1 = k'
      · simp [hp']
      · simp only [if_neg hp']
        exact ih

lemma mem_keys_filter_ne (l : List (String × β)) (k x : String) :
    x ∈ (l.filter (fun p => ¬ (p.1 = k))).map Prod.fst ↔
      (x ∈ l.map Prod.fst ∧ ¬ x = k) := by
  constructor
  · intro h
    obtain ⟨p, hp, hpx⟩ := List.mem_map.mp h
    obtain ⟨hpl, hpk⟩ := List.mem_filter.mp hp
    refine ⟨List.mem_map.mpr ⟨p, hpl, hpx⟩, ?_⟩
    intro hx
    rw [← hpx] at hx
    simp [hx] at hpk
  · rintro ⟨h, hx⟩
    obtain ⟨p, hpl, hpx⟩ := List.mem_map.mp h
    refine List.mem_map.mpr ⟨p, List.mem_filter.mpr ⟨hpl, ?_⟩, hpx⟩
    rw [hpx] at *
    simpa using hx

lemma filter_idem (l : List β) (f : β → Bool) :
    (l.filter f).filter f = l.filter f := by
  induction l with
  | nil => rfl
  | cons a as ih =>
    by_cases ha : f a
    · simp [List.filter_cons, ha, ih]
    · simp only [List.filter_cons, Bool.not_eq_true] at ha ⊢
      simp [ha, ih]

lemma alookup_append_single_self (l : List (String × β)) (k : String) (v : β)
    (h : ¬ k ∈ l.map Prod.fst) : alookup (l ++ [(k, v)]) k = some v := by
  induction l with
  | nil => simp [alookup]
  | cons p ps ih =>
    simp only [List.map_cons, List.mem_cons] at h
    push_neg at h
    have hp : ¬ p.1 = k := fun hc => h.1 hc.symm
    simp only [List.cons_append, alookup, if_neg hp]
    exact ih h.2

lemma alookup_append_single_ne (l : List (String × β)) (k k' : String) (v : β)
    (hne : ¬ k' = k) : alookup (l ++ [(k, v)]) k' = alookup l k' := by
  induction l with
  | nil =>
    have hk : ¬ k = k' := fun h => hne h.symm
    simp [alookup, hk]
  | cons p ps ih =>
    by_cases hp : p.1 = k'
    · simp [alookup, hp]
    · simp only [List.cons_append, alookup, if_neg hp]
      exact ih

lemma aset_append_single (l : List (String × β)) (k : String) (v1 v2 : β)
    (h : ¬ k ∈ l.map Prod.fst) : aset (l ++ [(k, v1)]) k v2 = l ++ [(k, v2)] := by
  induction l with
  | nil => simp [aset]
  | cons p ps ih =>
    simp only [List.map_cons, List.mem_cons] at h
    push_neg at h
    have hp : ¬ p.1 = k := fun hc => h.1 hc.symm
    simp only [List.cons_append, aset, List.map_cons, if_neg hp]
    have := ih h.2
    simp only [aset] at this
    simp [this]

end ListLemmas

section PayloadLemmas

variable {β : Type}

lemma any_key_iff (m : List (String × β)) (k : String) :
    (m.any (fun p => p.1 = k)) = true ↔ k ∈ m.map Prod.fst := by
  simp only [List.any_eq_true, decide_eq_true_eq, List.mem_map]

lemma alookup_payloadSet_self (m : List (String × β)) (k : String) (v : β) :
    alookup (payloadSet m k v) k = some v := by
  unfold payloadSet
  by_cases hc : (m.any (fun p => p.1 = k)) = true
  · rw [if_pos hc]
    obtain ⟨u, hu⟩ :=
      alookup_isSome_of_mem_keys m k ((any_key_iff m k).mp hc)
    have := alookup_aset_self m k v
    rw [hu] at this
    simpa [aset] using this
  · rw [if_neg hc]
    refine alookup_append_single_self m k v ?_
    intro hmem
    exact hc ((any_key_iff m k).mpr hmem)

lemma alookup_payloadSet_ne (m : List (String × β)) (k k' : String) (v : β)
    (hne : ¬ k' = k) : alookup (payloadSet m k v) k' = alookup m k' := by
  unfold payloadSet
  by_cases hc : (m.any (fun p => p.1 = k)) = true
  · rw [if_pos hc]
    simpa [aset] using alookup_aset_ne m k k' v hne
  · rw [if_neg hc]
    exact alookup_append_single_ne m k k' v hne

end PayloadLemmas

lemma clamp01_nonneg (x : ℚ) : 0 ≤ clamp01 x :=
  le_min zero_le_one (le_max_left 0 x)

lemma clamp01_le_one (x : ℚ) : clamp01 x ≤ 1 :=
  min_le_left 1 (max 0 x)

lemma clamp01_eq_self (x : ℚ) (h0 : 0 ≤ x) (h1 : x ≤ 1) : clamp01 x = x := by
  unfold clamp01
  rw [max_eq_right h0, min_eq_right h1]

lemma strength_setData (s : Synapse) (k : String) (v : PValue) :
    (s.setData k v).strength = s.strength := rfl

lemma strength_addTag (s : Synapse) (t : String) :
    (s.addTag t).strength = s.strength := by
  unfold Synapse.addTag
  by_cases h : t ∈ s.tags <;> simp [h]

lemma strength_foldl_addTag (l : List String) (a : Synapse) :
    (l.foldl (fun acc t => acc.addTag t) a).strength = a.strength := by
  induction l generalizing a with
  | nil => rfl
  | cons t ts ih => rw [List.foldl_cons, ih, strength_addTag]

lemma strength_mkSynapse (id : String) (ty : SynapseType) (q : ℚ) :
    (mkSynapse id ty q).strength = clamp01 q := rfl

lemma strength_derive (s : Synapse) (newId : String) (ds : ℚ) :
    (s.derive newId ds).strength = clamp01 (if 0 ≤ ds then ds else s.strength) := by
  unfold Synapse.derive
  rw [strength_setData, strength_foldl_addTag]
  rfl

lemma payload_derive (s : Synapse) (newId : String) (ds : ℚ) :
    (s.derive newId ds).payload = [("derived_from", PValue.str s.id)] := by
  unfold Synapse.derive
  have hbase : ∀ (l : List String) (a : Synapse),
      (l.foldl (fun acc t => acc.addTag t) a).payload = a.payload := by
    intro l
    induction l with
    | nil => intro a; rfl
    | cons t ts ih =>
      intro a
      rw [List.foldl_cons, ih]
      unfold Synapse.addTag
      by_cases h : t ∈ a.tags <;> simp [h]
  show (Synapse.setData _ "derived_from" (PValue.str s.id)).payload = _
  rw [Synapse.setData]
  rw [hbase]
  rfl

lemma payloadStrength_weightedCopy (srcId tgtId : String) (w : ℚ) (s : Synapse) :
    payloadStrength (weightedCopy srcId tgtId w s) = payloadStrength s * w := by
  unfold weightedCopy payloadStrength
  simp only [Synapse.setData]
  rw [alookup_payloadSet_ne _ _ _ _ (by decide),
      alookup_payloadSet_ne _ _ _ _ (by decide),
      alookup_payloadSet_self]

lemma from_weightedCopy (srcId tgtId : String) (w : ℚ) (s : Synapse) :
    alookup (weightedCopy srcId tgtId w s).payload "from" = some (PValue.str srcId) := by
  unfold weightedCopy
  simp only [Synapse.setData]
  rw [alookup_payloadSet_ne _ _ _ _ (by decide), alookup_payloadSet_self]

lemma to_weightedCopy (srcId tgtId : String) (w : ℚ) (s : Synapse) :
    alookup (weightedCopy srcId tgtId w s).payload "to" = some (PValue.str tgtId) := by
  unfold weightedCopy
  simp only [Synapse.setData]
  rw [alookup_payloadSet_self]

lemma sum_nonneg_of_bounds (l : List ℚ) (h : ∀ x ∈ l, 0 ≤ x) : 0 ≤ l.sum := by
  induction l with
  | nil => simp
  | cons a as ih =>
    rw [List.sum_cons]
    have ha := h a (List.mem_cons_self a as)
    have hrest := ih (fun x hx => h x (List.mem_cons_of_mem a hx))
    linarith

lemma sum_le_length_of_bounds (l : List ℚ) (h : ∀ x ∈ l, x ≤ 1) :
    l.sum ≤ (l.length : ℚ) := by
  induction l with
  | nil => simp
  | cons a as ih =>
    rw [List.sum_cons, List.length_cons]
    have ha := h a (List.mem_cons_self a as)
    have hrest := ih (fun x hx => h x (List.mem_cons_of_mem a hx))
    push_cast
    linarith

lemma fireDeliveries_length (n : Neuron) :
    (fireDeliveries n).length = n.connections.length * (fireOuts n).length := by
  unfold fireDeliveries
  generalize n.connections = l
  induction l with
  | nil => simp
  | cons a as ih =>
    simp only [List.flatMap_cons, List.length_append, List.length_map, ih,
      List.length_cons]
    ring

lemma fireDeliveries_complete (n : Neuron) (tw : String × ℚ) (s : Synapse)
    (htw : tw ∈ n.connections) (hs : s ∈ fireOuts n) :
    (tw.1, weightedCopy n.id tw.1 tw.2 s) ∈ fireDeliveries n := by
  unfold fireDeliveries
  exact List.mem_flatMap.mpr ⟨tw, htw, List.mem_map.mpr ⟨s, hs, rfl⟩⟩

lemma fireDeliveries_sound (n : Neuron) (d : String × Synapse)
    (hd : d ∈ fireDeliveries n) :
    ∃ tw, tw ∈ n.connections ∧ ∃ s, s ∈ fireOuts n ∧
      d = (tw.1, weightedCopy n.id tw.1 tw.2 s) := by
  unfold fireDeliveries at hd
  obtain ⟨tw, htw, hmem⟩ := List.mem_flatMap.mp hd
  obtain ⟨s, hs, heq⟩ := List.mem_map.mp hmem
  exact ⟨tw, htw, s, hs, heq.symm⟩

lemma alookup_mapval {β : Type} (l : List (String × β)) (f : β → β) (k : String) :
    alookup (l.map (fun p => (p.1, f p.2))) k = (alookup l k).map f := by
  induction l with
  | nil => rfl
  | cons p ps ih =>
    by_cases hp : p.1 = k
    · simp [alookup, hp]
    · simp only [List.map_cons, alookup, hp, if_false]
      exact ih

lemma alookup_hSet_self (h : Heap) (k : String) (n : Neuron) :
    alookup (hSet h k n).neurons k = (alookup h.neurons k).map (fun _ => n) :=
  alookup_aset_self h.neurons k n

lemma alookup_hSet_ne (h : Heap) (k k' : String) (n : Neuron) (hne : ¬ k' = k) :
    alookup (hSet h k n).neurons k' = alookup h.neurons k' :=
  alookup_aset_ne h.neurons k k' n hne

lemma map_fst_hSet (h : Heap) (k : String) (n : Neuron) :
    (hSet h k n).neurons.map Prod.fst = h.neurons.map Prod.fst :=
  map_fst_aset h.neurons k n

lemma events_hSet (h : Heap) (k : String) (n : Neuron) :
    (hSet h k n).events = h.events := rfl

lemma heapDisconnect_noop_of_tgt_none (h : Heap) (sId tId : String)
    (ht : alookup h.neurons tId = none) : (heapDisconnect h sId tId).1 = h := by
  unfold heapDisconnect
  cases hs : alookup h.neurons sId <;> simp [hs, ht]

lemma heapDisconnect_noop_of_edge_none (h : Heap) (sId tId : String)
    (src tn : Neuron) (hs : alookup h.neurons sId = some src)
    (ht : alookup h.neurons tId = some tn)
    (hw : alookup src.connections tId = none) :
    (heapDisconnect h sId tId).1 = h := by
  unfold heapDisconnect
  simp [hs, ht, hw]

lemma heapDisconnect_eq (h : Heap) (sId tId : String) (src tn : Neuron) (w : ℚ)
    (hs : alookup h.neurons sId = some src)
    (ht : alookup h.neurons tId = some tn)
    (hw : alookup src.connections tId = some w)
    (hne : ¬ tId = sId) :
    (heapDisconnect h sId tId).1 =
      hSet
        (hSet h sId
          { src with connections := src.connections.filter (fun p => ¬ (p.1 = tId)) })
        tId { tn with inputs := tn.inputs.filter (fun x => ¬ (x = sId)) } := by
  unfold heapDisconnect
  simp only [hs, ht, hw]
  have h1 : alookup
      (hSet h sId
        { src with connections := src.connections.filter (fun p => ¬ (p.1 = tId)) }).neurons
      tId = some tn := by
    rw [alookup_hSet_ne _ _ _ _ hne, ht]
  simp only [h1]

lemma disconnectFold_clean (nid : String) (ts : List String) :
    ∀ (h : Heap) (ncur : Neuron),
    alookup h.neurons nid = some ncur →
    ¬ nid ∈ ts → ts.Nodup →
    (∀ t ∈ ts, t ∈ ncur.connections.map Prod.fst) →
    (∃ nfin, alookup (disconnectFold h nid ts).neurons nid = some nfin ∧
        nfin.inputs = ncur.inputs) ∧
    (disconnectFold h nid ts).neurons.map Prod.fst = h.neurons.map Prod.fst ∧
    (disconnectFold h nid ts).events = h.events ∧
    (∀ k, ¬ k = nid → ∀ m, alookup h.neurons k = some m →
      ∃ m', alookup (disconnectFold h nid ts).neurons k = some m' ∧
        m'.connections = m.connections ∧
        (m'.inputs = m.inputs ∨ m'.inputs = m.inputs.filter (fun x => ¬ (x = nid))) ∧
        (k ∈ ts → ¬ nid ∈ m'.inputs)) := by
  induction ts with
  | nil =>
    intro h ncur hn _ _ _
    refine ⟨⟨ncur, hn, rfl⟩, rfl, rfl, ?_⟩
    intro k hk m hm
    exact ⟨m, hm, rfl, Or.inl rfl, by simp⟩
  | cons t ts ih =>
    intro h ncur hn hnt hnd hsub
    have hnid_t : ¬ nid = t := fun hc => hnt (hc ▸ List.mem_cons_self t ts)
    have hnt' : ¬ nid ∈ ts := fun hc => hnt (List.mem_cons_of_mem t hc)
    have ht_ts : ¬ t ∈ ts := (List.nodup_cons.mp hnd).1
    have hnd' : ts.Nodup := (List.nodup_cons.mp hnd).2
    have htk : t ∈ ncur.connections.map Prod.fst := hsub t (List.mem_cons_self t ts)
    have hstep : disconnectFold h nid (t :: ts) =
        disconnectFold (heapDisconnect h nid t).1 nid ts := rfl
    cases ht : alookup h.neurons t with
    | none =>
      have hno : (heapDisconnect h nid t).1 = h :=
        heapDisconnect_noop_of_tgt_none h nid t ht
      rw [hstep, hno]
      obtain ⟨hex, hkeys, hev, hsur⟩ := ih h ncur hn hnt' hnd'
        (fun u hu => hsub u (List.mem_cons_of_mem t hu))
      refine ⟨hex, hkeys, hev, ?_⟩
      intro k hk m hm
      obtain ⟨m', hm', hconn, hinp, hcl⟩ := hsur k hk m hm
      refine ⟨m', hm', hconn, hinp, ?_⟩
      intro hkts
      rcases List.mem_cons.mp hkts with rfl | hks
      · rw [ht] at hm
        exact absurd hm (by simp)
      · exact hcl hks
    | some tn =>
      cases hw : alookup ncur.connections t with
      | none =>
        obtain ⟨w, hw'⟩ := alookup_isSome_of_mem_keys _ _ htk
        rw [hw] at hw'
        exact absurd hw' (by simp)
      | some w =>
        have heq := heapDisconnect_eq h nid t ncur tn w hn ht hw
          (fun hc => hnid_t hc.symm)
        have hlook_nid : alookup (heapDisconnect h nid t).1.neurons nid =
            some { ncur with connections :=
              ncur.connections.filter (fun p => ¬ (p.1 = t)) } := by
          rw [heq, alookup_hSet_ne _ _ _ _ hnid_t, alookup_hSet_self, hn]
          rfl
        have hlook_t : alookup (heapDisconnect h nid t).1.neurons t =
            some { tn with inputs := tn.inputs.filter (fun x => ¬ (x = nid)) } := by
          rw [heq, alookup_hSet_self,
              alookup_hSet_ne _ _ _ _ (fun hc => hnid_t hc.symm), ht]
          rfl
        have hlook_other : ∀ k, ¬ k = nid → ¬ k = t →
            alookup (heapDisconnect h nid t).1.neurons k = alookup h.neurons k := by
          intro k hk1 hk2
          rw [heq, alookup_hSet_ne _ _ _ _ hk2, alookup_hSet_ne _ _ _ _ hk1]
        have hkeys_step : (heapDisconnect h nid t).1.neurons.map Prod.fst =
            h.neurons.map Prod.fst := by
          rw [heq, map_fst_hSet, map_fst_hSet]
        have hev_step : (heapDisconnect h nid t).1.events = h.events := by
          rw [heq, events_hSet, events_hSet]
        have hsub' : ∀ u ∈ ts,
            u ∈ ({ ncur with connections :=
              ncur.connections.filter (fun p => ¬ (p.1 = t)) } : Neuron).connections.map
                Prod.fst := by
          intro u hu
          have hu1 : u ∈ ncur.connections.map Prod.fst :=
            hsub u (List.mem_cons_of_mem t hu)
          have hu2 : ¬ u = t := fun hc => ht_ts (hc ▸ hu)
          exact (mem_keys_filter_ne _ _ _).mpr ⟨hu1, hu2⟩
        obtain ⟨hex, hkeys, hev, hsur⟩ :=
          ih (heapDisconnect h nid t).1 _ hlook_nid hnt' hnd' hsub'
        rw [hstep]
        refine ⟨?_, ?_, ?_, ?_⟩
        · obtain ⟨nfin, hf, hfi⟩ := hex
          exact ⟨nfin, hf, hfi⟩
        · rw [hkeys, hkeys_step]
        · rw [hev, hev_step]
        · intro k hk m hm
          by_cases hkt : k = t
          · subst hkt
            have hmtn : m = tn := Option.some.inj (hm.symm.trans ht)
            subst hmtn
            obtain ⟨m', hm', hconn, hinp, hcl⟩ := hsur k hk _ hlook_t
            refine ⟨m', hm', hconn, ?_, ?_⟩
            · right
              rcases hinp with h1 | h1
              · exact h1
              · rw [h1]
                exact filter_idem _ _
            · intro _
              rcases hinp with h1 | h1 <;> rw [h1] <;>
                simp [List.mem_filter]
          · have hmk : alookup (heapDisconnect h nid t).1.neurons k = some m := by
              rw [hlook_other k hk hkt]
              exact hm
            obtain ⟨m', hmf, hconn, hinp, hcl⟩ := hsur k hk m hmk
            refine ⟨m', hmf, hconn, hinp, ?_⟩
            intro hkts
            rcases List.mem_cons.mp hkts with hceq | hks
            · exact absurd hceq hkt
            · exact hcl hks

lemma disconnectFromFold_clean (nid : String) (xs : List String) :
    ∀ (h : Heap) (ncur : Neuron),
    alookup h.neurons nid = some ncur →
    ¬ nid ∈ xs →
    (disconnectFromFold h nid xs).neurons.map Prod.fst = h.neurons.map Prod.fst ∧
    (disconnectFromFold h nid xs).events = h.events ∧
    (∀ k, ¬ k = nid → ∀ m, alookup h.neurons k = some m →
      ∃ m', alookup (disconnectFromFold h nid xs).neurons k = some m' ∧
        m'.inputs = m.inputs ∧
        (m'.connections = m.connections ∨
         m'.connections = m.connections.filter (fun p => ¬ (p.1 = nid))) ∧
        (k ∈ xs → ¬ nid ∈ m'.connections.map Prod.fst)) := by
  induction xs with
  | nil =>
    intro h ncur hn _
    refine ⟨rfl, rfl, ?_⟩
    intro k hk m hm
    exact ⟨m, hm, rfl, Or.inl rfl, by simp⟩
  | cons x xs ih =>
    intro h ncur hn hnx
    have hnid_x : ¬ nid = x := fun hc => hnx (hc ▸ List.mem_cons_self x xs)
    have hnx' : ¬ nid ∈ xs := fun hc => hnx (List.mem_cons_of_mem x hc)
    have hstep : disconnectFromFold h nid (x :: xs) =
        disconnectFromFold (heapDisconnect h x nid).1 nid xs := rfl
    cases hx : alookup h.neurons x with
    | none =>
      have hno : (heapDisconnect h x nid).1 = h := by
        unfold heapDisconnect
        simp [hx]
      rw [hstep, hno]
      obtain ⟨hkeys, hev, hsur⟩ := ih h ncur hn hnx'
      refine ⟨hkeys, hev, ?_⟩
      intro k hk m hm
      obtain ⟨m', hm', hinp, hconn, hcl⟩ := hsur k hk m hm
      refine ⟨m', hm', hinp, hconn, ?_⟩
      intro hkxs
      rcases List.mem_cons.mp hkxs with rfl | hks
      · rw [hx] at hm
        exact absurd hm (by simp)
      · exact hcl hks
    | some xn =>
      cases hw : alookup xn.connections nid with
      | none =>
        have hno : (heapDisconnect h x nid).1 = h :=
          heapDisconnect_noop_of_edge_none h x nid xn ncur hx hn hw
        rw [hstep, hno]
        obtain ⟨hkeys, hev, hsur⟩ := ih h ncur hn hnx'
        refine ⟨hkeys, hev, ?_⟩
        intro k hk m hm
        obtain ⟨m', hm', hinp, hconn, hcl⟩ := hsur k hk m hm
        refine ⟨m', hm', hinp, hconn, ?_⟩
        intro hkxs
        rcases List.mem_cons.mp hkxs with rfl | hks
        · have hmxn : m = xn := Option.some.inj (hm.symm.trans hx)
          subst hmxn
          have hnidmem : ¬ nid ∈ m.connections.map Prod.fst :=
            (alookup_eq_none_iff _ _).mp hw
          rcases hconn with h1 | h1
          · rw [h1]
            exact hnidmem
          · rw [h1]
            intro hmem
            exact absurd ((mem_keys_filter_ne _ _ _).mp hmem).2 (by simp)
        · exact hcl hks
      | some w =>
        have heq := heapDisconnect_eq h x nid xn ncur w hx hn hw hnid_x
        have hlook_nid : alookup (heapDisconnect h x nid).1.neurons nid =
            some { ncur with inputs := ncur.inputs.filter (fun u => ¬ (u = x)) } := by
          rw [heq, alookup_hSet_self,
              alookup_hSet_ne _ _ _ _ hnid_x, hn]
          rfl
        have hlook_x : alookup (heapDisconnect h x nid).1.neurons x =
            some { xn with connections :=
              xn.connections.filter (fun p => ¬ (p.1 = nid)) } := by
          rw [heq, alookup_hSet_ne _ _ _ _ (fun hc => hnid_x hc.symm),
              alookup_hSet_self, hx]
          rfl
        have hlook_other : ∀ k, ¬ k = nid → ¬ k = x →
            alookup (heapDisconnect h x nid).1.neurons k = alookup h.neurons k := by
          intro k hk1 hk2
          rw [heq, alookup_hSet_ne _ _ _ _ hk1, alookup_hSet_ne _ _ _ _ hk2]
        have hkeys_step : (heapDisconnect h x nid).1.neurons.map Prod.fst =
            h.neurons.map Prod.fst := by
          rw [heq, map_fst_hSet, map_fst_hSet]
        have hev_step : (heapDisconnect h x nid).1.events = h.events := by
          rw [heq, events_hSet, events_hSet]
        obtain ⟨hkeys, hev, hsur⟩ :=
          ih (heapDisconnect h x nid).1 _ hlook_nid hnx'
        rw [hstep]
        refine ⟨?_, ?_, ?_⟩
        · rw [hkeys, hkeys_step]
        · rw [hev, hev_step]
        · intro k hk m hm
          by_cases hkx : k = x
          · subst hkx
            have hmxn : m = xn := Option.some.inj (hm.symm.trans hx)
            subst hmxn
            obtain ⟨m', hm', hinp, hconn, hcl⟩ := hsur k hk _ hlook_x
            refine ⟨m', hm', hinp, ?_, ?_⟩
            · right
              rcases hconn with h1 | h1
              · exact h1
              · rw [h1]
                exact filter_idem _ _
            · intro _
              rcases hconn with h1 | h1 <;> rw [h1] <;>
                intro hmem <;>
                exact absurd ((mem_keys_filter_ne _ _ _).mp hmem).2 (by simp)
          · have hmk : alookup (heapDisconnect h x nid).1.neurons k = some m := by
              rw [hlook_other k hk hkx]
              exact hm
            obtain ⟨m', hmf, hinp, hconn, hcl⟩ := hsur k hk m hmk
            refine ⟨m', hmf, hinp, hconn, ?_⟩
            intro hkxs
            rcases List.mem_cons.mp hkxs with hceq | hks
            · exact absurd hceq hkx
            · exact hcl hks

/-- Claim C8: after a successful `Network::removeNeuron(id)`, no surviving
neuron in the registry has the removed neuron among its outgoing edges or
incoming back-references, the removed neuron is gone from the registry and
from the input/output lists, and removing an unregistered id fails.  The
well-formedness hypothesis is the symmetric edge/back-reference invariant
the engine itself maintains. -/
theorem claim_C8 (net : Network) (nid : String) :
    (alookup net.heap.neurons nid = none → net.removeNeuron nid = (net, false)) ∧
    (heapWF net.heap → ∀ n, alookup net.heap.neurons nid = some n →
      (net.removeNeuron nid).2 = true ∧
      alookup (net.removeNeuron nid).1.heap.neurons nid = none ∧
      ¬ nid ∈ (net.removeNeuron nid).1.inputNeurons ∧
      ¬ nid ∈ (net.removeNeuron nid).1.outputNeurons ∧
      (∀ p ∈ (net.removeNeuron nid).1.heap.neurons,
        ¬ nid ∈ p.2.connections.map Prod.fst ∧ ¬ nid ∈ p.2.inputs)) := by
  constructor
  · intro hn
    simp [Network.removeNeuron, hn]
  · intro hwf n hn
    obtain ⟨hnodup, hconnNodup, hself, hsym⟩ := hwf
    have hpn : (nid, n) ∈ net.heap.neurons := mem_of_alookup _ _ _ hn
    have hselfn := hself (nid, n) hpn
    have houts_nodup : (n.connections.map Prod.fst).Nodup := hconnNodup (nid, n) hpn
    obtain ⟨⟨nfin, hnfin, hnfin_inputs⟩, hkeys1, hev1, hsur1⟩ :=
      disconnectFold_clean nid (n.connections.map Prod.fst) net.heap n hn
        hselfn.1 houts_nodup (fun t ht => ht)
    have hnid_not_ins : ¬ nid ∈ nfin.inputs.filter
        (fun x => (alookup (disconnectFold net.heap nid
          (n.connections.map Prod.fst)).neurons x).isSome) := by
      intro hmem
      have := (List.mem_filter.mp hmem).1
      rw [hnfin_inputs] at this
      exact hselfn.2 this
    obtain ⟨hkeys2, hev2, hsur2⟩ :=
      disconnectFromFold_clean nid
        (nfin.inputs.filter
          (fun x => (alookup (disconnectFold net.heap nid
            (n.connections.map Prod.fst)).neurons x).isSome))
        (disconnectFold net.heap nid (n.connections.map Prod.fst)) nfin hnfin
        hnid_not_ins
    simp only [Network.removeNeuron, hn, hnfin]
    refine ⟨trivial, ?_, ?_, ?_, ?_⟩
    · exact alookup_filter_self _ _
    · intro hmem
      have := (List.mem_filter.mp hmem).2
      simp at this
    · intro hmem
      have := (List.mem_filter.mp hmem).2
      simp at this
    · intro p hp
      obtain ⟨hp_mem, hp_dec⟩ := List.mem_filter.mp hp
      have hp_ne : ¬ p.1 = nid := by simpa using hp_dec
      have hnodup2 : ((disconnectFromFold
          (disconnectFold net.heap nid (n.connections.map Prod.fst)) nid
          (nfin.inputs.filter
            (fun x => (alookup (disconnectFold net.heap nid
              (n.connections.map Prod.fst)).neurons x).isSome))).neurons.map
            Prod.fst).Nodup := by
        rw [hkeys2, hkeys1]
        exact hnodup
      have hlook2 := alookup_of_mem _ _ hnodup2 hp_mem
      have hkey_orig : p.1 ∈ net.heap.neurons.map Prod.fst := by
        rw [← hkeys1, ← hkeys2]
        exact List.mem_map_of_mem Prod.fst hp_mem
      obtain ⟨m0, hm0⟩ := alookup_isSome_of_mem_keys _ _ hkey_orig
      obtain ⟨m1, hm1, hm1conn, hm1inp, hm1cl⟩ := hsur1 p.1 hp_ne m0 hm0
      obtain ⟨m2, hm2, hm2inp, hm2conn, hm2cl⟩ := hsur2 p.1 hp_ne m1 hm1
      have hp2eq : p.2 = m2 := Option.some.inj (hlook2.symm.trans hm2)
      constructor
      · rw [hp2eq]
        by_cases hcase : nid ∈ m0.connections.map Prod.fst
        · have hpm0 : (p.1, m0) ∈ net.heap.neurons := mem_of_alookup _ _ _ hm0
          have hback : p.1 ∈ n.inputs := (hsym (p.1, m0) hpm0 (nid, n) hpn).1 hcase
          have halive : (alookup (disconnectFold net.heap nid
              (n.connections.map Prod.fst)).neurons p.1).isSome = true := by
            rw [hm1]
            rfl
          have hpins : p.1 ∈ nfin.inputs.filter
              (fun x => (alookup (disconnectFold net.heap nid
                (n.connections.map Prod.fst)).neurons x).isSome) := by
            refine List.mem_filter.mpr ⟨?_, halive⟩
            rw [hnfin_inputs]
            exact hback
          exact hm2cl hpins
        · rcases hm2conn with hcc | hcc
          · rw [hcc, hm1conn]
            exact hcase
          · rw [hcc]
            intro hmem
            exact absurd ((mem_keys_filter_ne _ _ _).mp hmem).2 (by simp)
      · rw [hp2eq, hm2inp]
        by_cases hcase : nid ∈ m0.inputs
        · have hpm0 : (p.1, m0) ∈ net.heap.neurons := mem_of_alookup _ _ _ hm0
          have hout : p.1 ∈ n.connections.map Prod.fst :=
            (hsym (p.1, m0) hpm0 (nid, n) hpn).2 hcase
          exact hm1cl hout
        · rcases hm1inp with hii | hii
          · rw [hii]
            exact hcase
          · rw [hii]
            intro hmem
            exact absurd (List.mem_filter.mp hmem).2 (by simp)

/-- Witness for C8: removing neuron `b` from the concrete three-neuron
network succeeds and scrubs every reference to it. -/
theorem claim_C8_witness :
    (c8Net.removeNeuron "b").2 = true ∧
    alookup (c8Net.removeNeuron "b").1.heap.neurons "b" = none ∧
    ¬ "b" ∈ (c8Net.removeNeuron "b").1.inputNeurons := by
  obtain ⟨-, h2⟩ := claim_C8 c8Net "b"
  obtain ⟨ha, hb, hc, -, -⟩ := h2 (by decide) c8b rfl
  exact ⟨ha, hb, hc⟩


/-- Literal form of the claim-C1 fixture neuron. -/
lemma c1Neuron_def : c1Neuron =
    { id := "n1", ntype := NeuronType.PROCESSING, state := NeuronState.RESTING,
      threshold := 1/2, potential := 0, gates := [], connections := [], inputs := [],
      inputSignals := [], outputSignals := [], tags := ["processing"], metadata := [],
      fireCallbacks := 1 } := rfl

lemma c2aN_def : c2aN =
    { id := "a", ntype := NeuronType.PROCESSING, state := NeuronState.RESTING,
      threshold := 1/2, potential := 0, gates := [], connections := [], inputs := [],
      inputSignals := [], outputSignals := [], tags := ["processing"], metadata := [],
      fireCallbacks := 1 } := rfl

lemma c2bN_def : c2bN =
    { id := "b", ntype := NeuronType.PROCESSING, state := NeuronState.RESTING,
      threshold := 1/2, potential := 0, gates := [], connections := [], inputs := [],
      inputSignals := [], outputSignals := [], tags := ["processing"], metadata := [],
      fireCallbacks := 1 } := rfl

lemma guard_resting :
    ((NeuronState.RESTING = NeuronState.REFRACTORY ∨
      NeuronState.RESTING = NeuronState.INHIBITED)) = False := by simp

/-- Claim C1: a threshold-0.5 neuron receiving one signal of strength 0.2
stays RESTING (potential 0.2, no fire-listener invocation); a further
signal of strength 0.4 raises the potential to 0.6 ≥ 0.5, upon which the
fire listener runs exactly once and the neuron ends RESTING with its
potential reset to 0. -/
theorem claim_C1 :
    stateAt c1run1 "n1" = some NeuronState.RESTING ∧
    firedCount c1run1 "n1" = some 0 ∧
    potentialAt c1run1 "n1" = some (1/5) ∧
    firedCount c1run2 "n1" = some 1 ∧
    stateAt c1run2 "n1" = some NeuronState.RESTING ∧
    potentialAt c1run2 "n1" = some 0 := by
  try simp [stateAt, potentialAt, firedCount, neuronAt, c1run1, c1run2, c1Heap,
    c1Neuron_def, stim, guard_resting,
    receiveSignalF, processSignalsF, fireF, deliverAll, hSet, aset, alookup, payloadSet,
    mkSynapse, Synapse.setData, payloadStrength, gatePass, clamp01, fireOuts,
    fireDeliveries, defaultOutput, weightedCopy, Synapse.derive, Synapse.setSourceId,
    Synapse.setTargetId, Synapse.addTag, Synapse.setStrength, min_def, max_def,
    List.replicate, List.count_cons, List.count_nil,
    List.any, List.all, List.isEmpty, List.foldl, List.map, List.sum, List.filter,
    Option.isSome, List.flatMap]
  try norm_num [stateAt, potentialAt, firedCount, neuronAt, c1run1, c1run2, c1Heap,
    c1Neuron_def, stim, guard_resting,
    receiveSignalF, processSignalsF, fireF, deliverAll, hSet, aset, alookup, payloadSet,
    mkSynapse, Synapse.setData, payloadStrength, gatePass, clamp01, fireOuts,
    fireDeliveries, defaultOutput, weightedCopy, Synapse.derive, Synapse.setSourceId,
    Synapse.setTargetId, Synapse.addTag, Synapse.setStrength, min_def, max_def,
    List.replicate, List.count_cons, List.count_nil,
    List.any, List.all, List.isEmpty, List.foldl, List.map, List.sum, List.filter,
    Option.isSome, List.flatMap]
  try simp [stateAt, potentialAt, firedCount, neuronAt, c1run1, c1run2, c1Heap,
    c1Neuron_def, stim, guard_resting,
    receiveSignalF, processSignalsF, fireF, deliverAll, hSet, aset, alookup, payloadSet,
    mkSynapse, Synapse.setData, payloadStrength, gatePass, clamp01, fireOuts,
    fireDeliveries, defaultOutput, weightedCopy, Synapse.derive, Synapse.setSourceId,
    Synapse.setTargetId, Synapse.addTag, Synapse.setStrength, min_def, max_def,
    List.replicate, List.count_cons, List.count_nil,
    List.any, List.all, List.isEmpty, List.foldl, List.map, List.sum, List.filter,
    Option.isSome, List.flatMap]
  try norm_num [stateAt, potentialAt, firedCount, neuronAt, c1run1, c1run2, c1Heap,
    c1Neuron_def, stim, guard_resting,
    receiveSignalF, processSignalsF, fireF, deliverAll, hSet, aset, alookup, payloadSet,
    mkSynapse, Synapse.setData, payloadStrength, gatePass, clamp01, fireOuts,
    fireDeliveries, defaultOutput, weightedCopy, Synapse.derive, Synapse.setSourceId,
    Synapse.setTargetId, Synapse.addTag, Synapse.setStrength, min_def, max_def,
    List.replicate, List.count_cons, List.count_nil,
    List.any, List.all, List.isEmpty, List.foldl, List.map, List.sum, List.filter,
    Option.isSome, List.flatMap]

/-- Claim C2 (amended): for every `fire()` call, each (outgoing edge,
output signal) pair yields exactly one derived delivery — the delivery
list has length edges·signals, contains the weighted copy of every pair
and nothing else — and each copy carries payload strength equal to the
signal's payload strength (default 0.5) times the edge weight, without
clamping, stamped with from/to metadata.  In the concrete network A→B of
weight 0.9, a 0.9-strength stimulus fires A at potential 0.9, delivers a
0.81-strength signal to B, and B fires exactly once. -/
theorem claim_C2 :
    (∀ n : Neuron,
      (fireDeliveries n).length = n.connections.length * (fireOuts n).length) ∧
    (∀ n : Neuron, ∀ tw ∈ n.connections, ∀ s ∈ fireOuts n,
      (tw.1, weightedCopy n.id tw.1 tw.2 s) ∈ fireDeliveries n) ∧
    (∀ n : Neuron, ∀ d ∈ fireDeliveries n,
      ∃ tw, tw ∈ n.connections ∧ ∃ s, s ∈ fireOuts n ∧
        d = (tw.1, weightedCopy n.id tw.1 tw.2 s)) ∧
    (∀ srcId tgtId w s,
      payloadStrength (weightedCopy srcId tgtId w s) = payloadStrength s * w) ∧
    (∀ srcId tgtId w s,
      alookup (weightedCopy srcId tgtId w s).payload "from" =
          some (PValue.str srcId) ∧
      alookup (weightedCopy srcId tgtId w s).payload "to" =
          some (PValue.str tgtId)) ∧
    (firedCount c2run "a" = some 1 ∧ firedCount c2run "b" = some 1 ∧
     outStrengthsAt c2run "a" = some [9/10, 9/10] ∧
     outStrengthsAt c2run "b" = some [81/100, 81/100] ∧
     potentialAt c2run "a" = some 0 ∧
     stateAt c2run "b" = some NeuronState.RESTING) :=
  ⟨fireDeliveries_length,
   fun n tw htw s hs => fireDeliveries_complete n tw s htw hs,
   fun n d hd => fireDeliveries_sound n d hd,
   payloadStrength_weightedCopy,
   fun srcId tgtId w s =>
     ⟨from_weightedCopy srcId tgtId w s, to_weightedCopy srcId tgtId w s⟩,
   by
     refine ⟨?_, ?_, ?_, ?_, ?_, ?_⟩ <;>
     { try simp [stateAt, potentialAt, firedCount, outStrengthsAt, neuronAt, c2run, cxRun,
    c2HeapConnected, cxHeapConnected, c2Heap, c2aN_def, c2bN_def, heapConnect, stim,
    guard_resting,
    receiveSignalF, processSignalsF, fireF, deliverAll, hSet, aset, alookup, payloadSet,
    mkSynapse, Synapse.setData, payloadStrength, gatePass, clamp01, fireOuts,
    fireDeliveries, defaultOutput, weightedCopy, Synapse.derive, Synapse.setSourceId,
    Synapse.setTargetId, Synapse.addTag, Synapse.setStrength, min_def, max_def,
    List.replicate, List.count_cons, List.count_nil,
    List.any, List.all, List.isEmpty, List.foldl, List.map, List.sum, List.filter,
    Option.isSome, List.flatMap]
       try norm_num [stateAt, potentialAt, firedCount, outStrengthsAt, neuronAt, c2run, cxRun,
    c2HeapConnected, cxHeapConnected, c2Heap, c2aN_def, c2bN_def, heapConnect, stim,
    guard_resting,
    receiveSignalF, processSignalsF, fireF, deliverAll, hSet, aset, alookup, payloadSet,
    mkSynapse, Synapse.setData, payloadStrength, gatePass, clamp01, fireOuts,
    fireDeliveries, defaultOutput, weightedCopy, Synapse.derive, Synapse.setSourceId,
    Synapse.setTargetId, Synapse.addTag, Synapse.setStrength, min_def, max_def,
    List.replicate, List.count_cons, List.count_nil,
    List.any, List.all, List.isEmpty, List.foldl, List.map, List.sum, List.filter,
    Option.isSome, List.flatMap]
       try simp [stateAt, potentialAt, firedCount, outStrengthsAt, neuronAt, c2run, cxRun,
    c2HeapConnected, cxHeapConnected, c2Heap, c2aN_def, c2bN_def, heapConnect, stim,
    guard_resting,
    receiveSignalF, processSignalsF, fireF, deliverAll, hSet, aset, alookup, payloadSet,
    mkSynapse, Synapse.setData, payloadStrength, gatePass, clamp01, fireOuts,
    fireDeliveries, defaultOutput, weightedCopy, Synapse.derive, Synapse.setSourceId,
    Synapse.setTargetId, Synapse.addTag, Synapse.setStrength, min_def, max_def,
    List.replicate, List.count_cons, List.count_nil,
    List.any, List.all, List.isEmpty, List.foldl, List.map, List.sum, List.filter,
    Option.isSome, List.flatMap]
       try norm_num [stateAt, potentialAt, firedCount, outStrengthsAt, neuronAt, c2run, cxRun,
    c2HeapConnected, cxHeapConnected, c2Heap, c2aN_def, c2bN_def, heapConnect, stim,
    guard_resting,
    receiveSignalF, processSignalsF, fireF, deliverAll, hSet, aset, alookup, payloadSet,
    mkSynapse, Synapse.setData, payloadStrength, gatePass, clamp01, fireOuts,
    fireDeliveries, defaultOutput, weightedCopy, Synapse.derive, Synapse.setSourceId,
    Synapse.setTargetId, Synapse.addTag, Synapse.setStrength, min_def, max_def,
    List.replicate, List.count_cons, List.count_nil,
    List.any, List.all, List.isEmpty, List.foldl, List.map, List.sum, List.filter,
    Option.isSome, List.flatMap] }⟩

/-- Witness for C2: the single edge/signal pair of the concrete neuron
`c2n` produces its weighted delivery. -/
theorem claim_C2_witness :
    ("b", weightedCopy "a" "b" (9/10) (stim "s" (9/10))) ∈ fireDeliveries c2n :=
  claim_C2.2.1 c2n ("b", 9/10) (by simp [c2n])
    (stim "s" (9/10)) (by simp [fireOuts, c2n])

/-- Counterexample for C2 as stated: with an edge of weight 2 (edge
weights are unconstrained), the signal delivered to B — stored in B's
output buffer after the run — carries payload strength 1.8, not the
clamped value clamp(0.9·2) = 1 the claim requires; the delivered
strength even lies outside [0,1]. -/
theorem claim_C2_counterexample :
    outStrengthsAt cxRun "b" = some [1, 9/5] ∧
    clamp01 ((9/10) * 2) = 1 ∧
    ¬ ((9/5 : ℚ) = 1) ∧
    ¬ ((9/5 : ℚ) ≤ 1) := by
  refine ⟨?_, by norm_num [clamp01], by norm_num, by norm_num⟩
  try simp [stateAt, potentialAt, firedCount, outStrengthsAt, neuronAt, c2run, cxRun,
    c2HeapConnected, cxHeapConnected, c2Heap, c2aN_def, c2bN_def, heapConnect, stim,
    guard_resting,
    receiveSignalF, processSignalsF, fireF, deliverAll, hSet, aset, alookup, payloadSet,
    mkSynapse, Synapse.setData, payloadStrength, gatePass, clamp01, fireOuts,
    fireDeliveries, defaultOutput, weightedCopy, Synapse.derive, Synapse.setSourceId,
    Synapse.setTargetId, Synapse.addTag, Synapse.setStrength, min_def, max_def,
    List.replicate, List.count_cons, List.count_nil,
    List.any, List.all, List.isEmpty, List.foldl, List.map, List.sum, List.filter,
    Option.isSome, List.flatMap]
  try norm_num [stateAt, potentialAt, firedCount, outStrengthsAt, neuronAt, c2run, cxRun,
    c2HeapConnected, cxHeapConnected, c2Heap, c2aN_def, c2bN_def, heapConnect, stim,
    guard_resting,
    receiveSignalF, processSignalsF, fireF, deliverAll, hSet, aset, alookup, payloadSet,
    mkSynapse, Synapse.setData, payloadStrength, gatePass, clamp01, fireOuts,
    fireDeliveries, defaultOutput, weightedCopy, Synapse.derive, Synapse.setSourceId,
    Synapse.setTargetId, Synapse.addTag, Synapse.setStrength, min_def, max_def,
    List.replicate, List.count_cons, List.count_nil,
    List.any, List.all, List.isEmpty, List.foldl, List.map, List.sum, List.filter,
    Option.isSome, List.flatMap]
  try simp [stateAt, potentialAt, firedCount, outStrengthsAt, neuronAt, c2run, cxRun,
    c2HeapConnected, cxHeapConnected, c2Heap, c2aN_def, c2bN_def, heapConnect, stim,
    guard_resting,
    receiveSignalF, processSignalsF, fireF, deliverAll, hSet, aset, alookup, payloadSet,
    mkSynapse, Synapse.setData, payloadStrength, gatePass, clamp01, fireOuts,
    fireDeliveries, defaultOutput, weightedCopy, Synapse.derive, Synapse.setSourceId,
    Synapse.setTargetId, Synapse.addTag, Synapse.setStrength, min_def, max_def,
    List.replicate, List.count_cons, List.count_nil,
    List.any, List.all, List.isEmpty, List.foldl, List.map, List.sum, List.filter,
    Option.isSome, List.flatMap]
  try norm_num [stateAt, potentialAt, firedCount, outStrengthsAt, neuronAt, c2run, cxRun,
    c2HeapConnected, cxHeapConnected, c2Heap, c2aN_def, c2bN_def, heapConnect, stim,
    guard_resting,
    receiveSignalF, processSignalsF, fireF, deliverAll, hSet, aset, alookup, payloadSet,
    mkSynapse, Synapse.setData, payloadStrength, gatePass, clamp01, fireOuts,
    fireDeliveries, defaultOutput, weightedCopy, Synapse.derive, Synapse.setSourceId,
    Synapse.setTargetId, Synapse.addTag, Synapse.setStrength, min_def, max_def,
    List.replicate, List.count_cons, List.count_nil,
    List.any, List.all, List.isEmpty, List.foldl, List.map, List.sum, List.filter,
    Option.isSome, List.flatMap]

lemma strength_foldl_copy (l : List (String × PValue)) (suffix : String) (a : Synapse) :
    (l.foldl (fun acc p =>
        if p.1 = "source" ∨ p.1 = "target" ∨ p.1 = "strength" then acc
        else acc.setData (p.1 ++ suffix) p.2) a).strength = a.strength := by
  induction l generalizing a with
  | nil => rfl
  | cons p ps ih =>
    rw [List.foldl_cons]
    by_cases hp : p.1 = "source" ∨ p.1 = "target" ∨ p.1 = "strength"
    · rw [if_pos hp]
      exact ih _
    · rw [if_neg hp, ih]
      rfl

lemma strength_combine (s o : Synapse) :
    (s.combine o).strength = clamp01 ((s.strength + o.strength) / 2) := by
  simp only [Synapse.combine]
  rw [strength_foldl_copy, strength_foldl_copy, strength_setData, strength_setData,
      strength_foldl_addTag, strength_foldl_addTag]
  rfl

/-- Claim C3: a stored signal strength is always within [0,1] — the
constructor and `setStrength` clamp their argument, every other signal
operation leaves the stored strength untouched, and the derived/combined
signals are clamped again on construction. -/
theorem claim_C3 :
    (∀ id ty q, (mkSynapse id ty q).getStrength = clamp01 q) ∧
    (∀ s v, (Synapse.setStrength s v).getStrength = clamp01 v) ∧
    (∀ id ty q, 0 ≤ (mkSynapse id ty q).strength ∧ (mkSynapse id ty q).strength ≤ 1) ∧
    (∀ s v, 0 ≤ (Synapse.setStrength s v).strength ∧
      (Synapse.setStrength s v).strength ≤ 1) ∧
    (∀ s newId ds, 0 ≤ (Synapse.derive s newId ds).strength ∧
      (Synapse.derive s newId ds).strength ≤ 1) ∧
    (∀ s o, 0 ≤ (Synapse.combine s o).strength ∧ (Synapse.combine s o).strength ≤ 1) ∧
    (∀ s k v, (Synapse.setData s k v).strength = s.strength) ∧
    (∀ s t, (Synapse.addTag s t).strength = s.strength) ∧
    (∀ s v, (Synapse.setSourceId s v).strength = s.strength) ∧
    (∀ s v, (Synapse.setTargetId s v).strength = s.strength) := by
  refine ⟨fun _ _ _ => rfl, fun _ _ => rfl, ?_, ?_, ?_, ?_,
    fun _ _ _ => rfl, fun s t => strength_addTag s t, fun _ _ => rfl, fun _ _ => rfl⟩
  · exact fun id ty q => ⟨clamp01_nonneg q, clamp01_le_one q⟩
  · exact fun s v => ⟨clamp01_nonneg v, clamp01_le_one v⟩
  · intro s newId ds
    rw [strength_derive]
    exact ⟨clamp01_nonneg _, clamp01_le_one _⟩
  · intro s o
    rw [strength_combine]
    exact ⟨clamp01_nonneg _, clamp01_le_one _⟩

lemma and_cond_iff (thr : ℚ) (inputs : List Synapse) :
    (inputs.all (fun i => ¬ (i.strength < thr)) = true) ↔
      ∀ i ∈ inputs, thr ≤ i.strength := by
  simp only [List.all_eq_true, decide_eq_true_eq, not_lt]

/-- Claim C4: the AND gate activates exactly when the input list is
nonempty and every input strength reaches the threshold, and then the
output strength is the arithmetic mean of the input strengths; the two
concrete threshold-0.5 scenarios behave as stated. -/
theorem claim_C4 :
    (∀ gid thr, AndGate.process gid thr [] = none) ∧
    (∀ gid thr inputs, (∃ r, AndGate.process gid thr inputs = some r) ↔
      (inputs ≠ [] ∧ ∀ i ∈ inputs, thr ≤ i.strength)) ∧
    (∀ gid thr inputs r, AndGate.process gid thr inputs = some r →
      (∀ i ∈ inputs, 0 ≤ i.strength ∧ i.strength ≤ 1) →
      r.strength = (inputs.map Synapse.strength).sum / (inputs.length : ℚ)) ∧
    ((AndGate.process "g" (1/2) [c4sigA, c4sigB]).map Synapse.strength
        = some (9/10)) ∧
    (AndGate.process "g" (1/2) [c4sigA, c4sigC] = none) := by
  refine ⟨fun _ _ => rfl, ?_, ?_, ?_, ?_⟩
  · intro gid thr inputs
    cases inputs with
    | nil => simp [AndGate.process]
    | cons i0 rest =>
      by_cases hall : ∀ i ∈ i0 :: rest, thr ≤ i.strength
      · rw [show AndGate.process gid thr (i0 :: rest) = some _ from
          by rw [AndGate.process, if_pos ((and_cond_iff thr (i0 :: rest)).mpr hall)]]
        constructor
        · intro _
          exact ⟨List.cons_ne_nil i0 rest, hall⟩
        · intro _
          exact ⟨_, rfl⟩
      · have hcond : ¬ ((i0 :: rest).all (fun i => ¬ (i.strength < thr)) = true) :=
          fun hc => hall ((and_cond_iff thr (i0 :: rest)).mp hc)
        rw [show AndGate.process gid thr (i0 :: rest) = none from
          by rw [AndGate.process, if_neg hcond]]
        constructor
        · rintro ⟨r, hr⟩
          exact absurd hr (by simp)
        · rintro ⟨-, hforall⟩
          exact absurd hforall hall
  · intro gid thr inputs r hr hbounds
    cases inputs with
    | nil => exact absurd hr (by simp [AndGate.process])
    | cons i0 rest =>
      by_cases hcond : ((i0 :: rest).all (fun i => ¬ (i.strength < thr)) = true)
      · rw [AndGate.process, if_pos hcond] at hr
        obtain rfl := (Option.some.inj hr).symm
        rw [strength_addTag, strength_setData, strength_setData]
        have hlen : (0 : ℚ) < ((i0 :: rest).length : ℚ) := by
          rw [List.length_cons]
          push_cast
          positivity
        have h0 : 0 ≤ ((i0 :: rest).map Synapse.strength).sum /
            ((i0 :: rest).length : ℚ) := by
          apply div_nonneg _ (le_of_lt hlen)
          apply sum_nonneg_of_bounds
          intro x hx
          obtain ⟨i, hi, rfl⟩ := List.mem_map.mp hx
          exact (hbounds i hi).1
        have h1 : ((i0 :: rest).map Synapse.strength).sum /
            ((i0 :: rest).length : ℚ) ≤ 1 := by
          rw [div_le_one hlen]
          have := sum_le_length_of_bounds ((i0 :: rest).map Synapse.strength) ?_
          · rw [List.length_map] at this
            exact this
          · intro x hx
            obtain ⟨i, hi, rfl⟩ := List.mem_map.mp hx
            exact (hbounds i hi).2
        exact clamp01_eq_self _ h0 h1
      · rw [AndGate.process, if_neg hcond] at hr
        exact absurd hr (by simp)
  · rw [show AndGate.process "g" (1/2) [c4sigA, c4sigB] = some _ from
      by rw [AndGate.process, if_pos (by norm_num [c4sigA, c4sigB, mkSynapse, min_def, max_def, and_cond_iff])]]
    simp only [Option.map]
    congr 1
    rw [strength_addTag, strength_setData, strength_setData]
    show clamp01 _ = _
    norm_num [c4sigA, c4sigB, mkSynapse, min_def, max_def, clamp01]
  · rw [AndGate.process, if_neg]
    norm_num [c4sigA, c4sigC, mkSynapse, min_def, max_def, and_cond_iff]

/-- Witness for C4: the activation characterization applied to the two
0.9-strength inputs against threshold 0.5. -/
theorem claim_C4_witness :
    ∃ r, AndGate.process "g" (1/2) [c4sigA, c4sigB] = some r :=
  (claim_C4.2.1 "g" (1/2) [c4sigA, c4sigB]).mpr
    ⟨by simp, by
      intro i hi
      rcases List.mem_cons.mp hi with rfl | hi
      · norm_num [c4sigA, mkSynapse, min_def, max_def]
      · rcases List.mem_cons.mp hi with rfl | hi
        · norm_num [c4sigB, mkSynapse, min_def, max_def]
        · simp at hi⟩

lemma xor_two_shape (gid : String) (thr : ℚ) (inputs : List Synapse)
    (hlen : inputs.length ≠ 2) : XorGate.process gid thr inputs = none := by
  match inputs with
  | [] => rfl
  | [a] => rfl
  | [a, b] => exact absurd rfl hlen
  | a :: b :: c :: t => rfl

/-- Claim C5: the XOR gate yields no output unless given exactly two
inputs; with two inputs it activates iff exactly one strength reaches the
threshold, and then the output strength is the absolute difference of the
two strengths; the two concrete threshold-0.5 scenarios behave as
stated. -/
theorem claim_C5 :
    (∀ gid thr inputs, inputs.length ≠ 2 → XorGate.process gid thr inputs = none) ∧
    (∀ gid thr s1 s2, (∃ r, XorGate.process gid thr [s1, s2] = some r) ↔
      ((thr ≤ s1.strength ∧ ¬ thr ≤ s2.strength) ∨
       (¬ thr ≤ s1.strength ∧ thr ≤ s2.strength))) ∧
    (∀ gid thr s1 s2 r, XorGate.process gid thr [s1, s2] = some r →
      r.strength = clamp01 |s1.strength - s2.strength|) ∧
    (∀ gid thr s1 s2 r, XorGate.process gid thr [s1, s2] = some r →
      0 ≤ s1.strength → s1.strength ≤ 1 → 0 ≤ s2.strength → s2.strength ≤ 1 →
      r.strength = |s1.strength - s2.strength|) ∧
    (XorGate.process "g" (1/2) [c5sigA, c5sigB, c5sigC] = none) ∧
    ((XorGate.process "g" (1/2) [c5sigA, c5sigB]).map Synapse.strength
        = some (6/10)) := by
  have hval : ∀ gid thr s1 s2 r, XorGate.process gid thr [s1, s2] = some r →
      r.strength = clamp01 |s1.strength - s2.strength| := by
    intro gid thr s1 s2 r hr
    rw [XorGate.process] at hr
    by_cases h1 : thr ≤ s1.strength <;> by_cases h2 : thr ≤ s2.strength <;>
      simp only [h1, h2, decide_True, decide_False, Bool.and_true, Bool.and_false,
        Bool.not_true, Bool.not_false, Bool.true_and, Bool.false_and, Bool.or_false,
        Bool.false_or, Bool.and_self, Bool.or_self, if_true, if_false,
        Bool.true_or, Bool.or_true, ite_true, ite_false] at hr
    · exact absurd hr (by simp)
    · obtain rfl := (Option.some.inj hr).symm
      rw [strength_addTag, strength_setData, strength_setData]
      rfl
    · obtain rfl := (Option.some.inj hr).symm
      rw [strength_addTag, strength_setData, strength_setData]
      rfl
    · exact absurd hr (by simp)
  refine ⟨fun gid thr inputs h => xor_two_shape gid thr inputs h, ?_, hval, ?_, ?_, ?_⟩
  · intro gid thr s1 s2
    rw [XorGate.process]
    by_cases h1 : thr ≤ s1.strength <;> by_cases h2 : thr ≤ s2.strength <;>
      simp [h1, h2]
  · intro gid thr s1 s2 r hr h10 h11 h20 h21
    rw [hval gid thr s1 s2 r hr]
    have habs0 : (0:ℚ) ≤ |s1.strength - s2.strength| := abs_nonneg _
    have habs1 : |s1.strength - s2.strength| ≤ 1 := by
      rw [abs_le]
      constructor <;> linarith
    exact clamp01_eq_self _ habs0 habs1
  · rfl
  · have h1 : (1:ℚ)/2 ≤ c5sigA.strength := by
      norm_num [c5sigA, mkSynapse, min_def, max_def]
    have h2 : ¬ (1:ℚ)/2 ≤ c5sigB.strength := by
      norm_num [c5sigB, mkSynapse, min_def, max_def]
    rw [XorGate.process]
    simp only [h1, h2, decide_True, decide_False, Bool.not_true, Bool.not_false,
      Bool.and_true, Bool.and_false, Bool.true_and, Bool.false_and, Bool.or_false,
      Bool.false_or, ite_true, ite_false, if_true, if_false]
    simp only [Option.map]
    congr 1
    rw [strength_addTag, strength_setData, strength_setData]
    show clamp01 _ = _
    norm_num [c5sigA, c5sigB, mkSynapse, min_def, max_def, clamp01, abs]

/-- Witness for C5: the exactly-one-above-threshold characterization
applied to the 0.8/0.2 pair against threshold 0.5. -/
theorem claim_C5_witness :
    ∃ r, XorGate.process "g" (1/2) [c5sigA, c5sigB] = some r :=
  (claim_C5.2.1 "g" (1/2) c5sigA c5sigB).mpr
    (Or.inl ⟨by norm_num [c5sigA, mkSynapse, min_def, max_def],
             by norm_num [c5sigB, mkSynapse, min_def, max_def]⟩)

/-- Claim C6: connecting A→B with weight 0.7 and then again with weight
0.4 leaves exactly one edge A→B carrying weight 0.4 — B's key occurs once
in A's outgoing map, A occurs once in B's incoming back-references — and
`getConnectionWeight` reports 0.4 (stated for arbitrary weights w1, w2 on
a pair of neurons not yet connected). -/
theorem claim_C6 (h : Heap) (a b : String) (A B : Neuron) (w1 w2 : ℚ)
    (hab : ¬ a = b)
    (hA : alookup h.neurons a = some A)
    (hB : alookup h.neurons b = some B)
    (hnoedge : alookup A.connections b = none)
    (hnoback : ¬ a ∈ B.inputs) :
    (heapConnect h a b w1).2 = true ∧
    (heapConnect (heapConnect h a b w1).1 a b w2).2 = true ∧
    (∃ A2 B2,
      alookup (heapConnect (heapConnect h a b w1).1 a b w2).1.neurons a = some A2 ∧
      alookup (heapConnect (heapConnect h a b w1).1 a b w2).1.neurons b = some B2 ∧
      A2.connections = A.connections ++ [(b, w2)] ∧
      (A2.connections.map Prod.fst).count b = 1 ∧
      B2.inputs = B.inputs ++ [a] ∧
      B2.inputs.count a = 1 ∧
      A2.getConnectionWeight b = w2) := by
  have hba : ¬ b = a := fun hc => hab hc.symm
  have hkey : ¬ b ∈ A.connections.map Prod.fst := (alookup_eq_none_iff _ _).mp hnoedge
  have hlook1 : alookup (hSet h a
      { A with connections := A.connections ++ [(b, w1)] }).neurons b = some B := by
    rw [alookup_hSet_ne _ _ _ _ hba, hB]
  have hstep1 : heapConnect h a b w1 =
      (hSet (hSet h a { A with connections := A.connections ++ [(b, w1)] }) b
        { B with inputs := B.inputs ++ [a] }, true) := by
    unfold heapConnect
    simp only [hA, hB, if_neg hba, hnoedge, hlook1]
  have hlookA1 : alookup (heapConnect h a b w1).1.neurons a =
      some { A with connections := A.connections ++ [(b, w1)] } := by
    rw [hstep1]
    show alookup (hSet _ _ _).neurons a = _
    rw [alookup_hSet_ne _ _ _ _ hab, alookup_hSet_self, hA]
    rfl
  have hlookB1 : alookup (heapConnect h a b w1).1.neurons b =
      some { B with inputs := B.inputs ++ [a] } := by
    rw [hstep1]
    show alookup (hSet _ _ _).neurons b = _
    rw [alookup_hSet_self, hlook1]
    rfl
  have hedge1 : alookup ({ A with
      connections := A.connections ++ [(b, w1)] } : Neuron).connections b =
      some w1 := alookup_append_single_self A.connections b w1 hkey
  have hstep2 : heapConnect (heapConnect h a b w1).1 a b w2 =
      (hSet (heapConnect h a b w1).1 a
        { A with connections := aset (A.connections ++ [(b, w1)]) b w2 }, true) := by
    conv =>
      lhs
      rw [heapConnect]
    simp only [hlookA1, hlookB1, if_neg hba, hedge1]
  have haset : aset (A.connections ++ [(b, w1)]) b w2 = A.connections ++ [(b, w2)] :=
    aset_append_single A.connections b w1 w2 hkey
  refine ⟨by rw [hstep1], by rw [hstep2], ?_⟩
  refine ⟨{ A with connections := A.connections ++ [(b, w2)] },
          { B with inputs := B.inputs ++ [a] }, ?_, ?_, rfl, ?_, rfl, ?_, ?_⟩
  · rw [hstep2]
    show alookup (hSet _ _ _).neurons a = _
    rw [alookup_hSet_self, hlookA1, haset]
    rfl
  · rw [hstep2]
    show alookup (hSet _ _ _).neurons b = _
    rw [alookup_hSet_ne _ _ _ _ hba, hlookB1]
  · show ((A.connections ++ [(b, w2)]).map Prod.fst).count b = 1
    rw [List.map_append, List.count_append]
    rw [List.count_eq_zero.mpr hkey]
    simp
  · show (B.inputs ++ [a]).count a = 1
    rw [List.count_append, List.count_eq_zero.mpr hnoback]
    simp
  · show Neuron.getConnectionWeight _ b = w2
    unfold Neuron.getConnectionWeight
    rw [show alookup ({ A with
        connections := A.connections ++ [(b, w2)] } : Neuron).connections b = some w2
      from alookup_append_single_self A.connections b w2 hkey]

/-- Witness for C6: the double connect on the concrete fresh pair. -/
theorem claim_C6_witness :
    connectionsAt (some (heapConnect (heapConnect c2Heap "a" "b" (7/10)).1
        "a" "b" (4/10)).1) "a" = some [("b", 4/10)] ∧
    inputsAt (some (heapConnect (heapConnect c2Heap "a" "b" (7/10)).1
        "a" "b" (4/10)).1) "b" = some ["a"] := by
  obtain ⟨-, -, A2, B2, hA2, hB2, hconn, -, hinp, -, -⟩ :=
    claim_C6 c2Heap "a" "b" c2aN c2bN (7/10) (4/10) (by decide) rfl rfl rfl (by decide)
  constructor
  · rw [show connectionsAt (some (heapConnect (heapConnect c2Heap "a" "b" (7/10)).1
        "a" "b" (4/10)).1) "a" = some A2.connections from by
      simp only [connectionsAt, neuronAt, hA2]]
    rw [hconn, c2aN_def]
    rfl
  · rw [show inputsAt (some (heapConnect (heapConnect c2Heap "a" "b" (7/10)).1
        "a" "b" (4/10)).1) "b" = some B2.inputs from by
      simp only [inputsAt, neuronAt, hB2]]
    rw [hinp, c2bN_def]
    rfl

/-- Claim C7: disconnecting a connected pair A→B succeeds, removing the
edge from A's outgoing map and every occurrence of A from B's incoming
back-references in the same call; disconnecting again fails and leaves
the heap unchanged. -/
theorem claim_C7 (h : Heap) (a b : String) (A B : Neuron) (w : ℚ)
    (hab : ¬ a = b)
    (hA : alookup h.neurons a = some A)
    (hB : alookup h.neurons b = some B)
    (hedge : alookup A.connections b = some w) :
    (heapDisconnect h a b).2 = true ∧
    (∃ A1 B1,
      alookup (heapDisconnect h a b).1.neurons a = some A1 ∧
      alookup (heapDisconnect h a b).1.neurons b = some B1 ∧
      A1.connections = A.connections.filter (fun p => ¬ (p.1 = b)) ∧
      ¬ b ∈ A1.connections.map Prod.fst ∧
      B1.inputs = B.inputs.filter (fun x => ¬ (x = a)) ∧
      ¬ a ∈ B1.inputs) ∧
    heapDisconnect (heapDisconnect h a b).1 a b = ((heapDisconnect h a b).1, false) := by
  have hba : ¬ b = a := fun hc => hab hc.symm
  have hlookinner : alookup (hSet h a
      { A with connections := A.connections.filter (fun p => ¬ (p.1 = b)) }).neurons b =
      some B := by
    rw [alookup_hSet_ne _ _ _ _ hba, hB]
  have hpair : heapDisconnect h a b =
      (hSet (hSet h a
          { A with connections := A.connections.filter (fun p => ¬ (p.1 = b)) }) b
        { B with inputs := B.inputs.filter (fun x => ¬ (x = a)) }, true) := by
    unfold heapDisconnect
    simp only [hA, hB, hedge, hlookinner]
  have hsucc : (heapDisconnect h a b).2 = true := by rw [hpair]
  have hlookA : alookup (heapDisconnect h a b).1.neurons a =
      some { A with connections := A.connections.filter (fun p => ¬ (p.1 = b)) } := by
    rw [hpair]
    show alookup (hSet _ _ _).neurons a = _
    rw [alookup_hSet_ne _ _ _ _ hab, alookup_hSet_self, hA]
    rfl
  have hlookB : alookup (heapDisconnect h a b).1.neurons b =
      some { B with inputs := B.inputs.filter (fun x => ¬ (x = a)) } := by
    rw [hpair]
    show alookup (hSet _ _ _).neurons b = _
    rw [alookup_hSet_self, alookup_hSet_ne _ _ _ _ hba, hB]
    rfl
  refine ⟨hsucc, ⟨_, _, hlookA, hlookB, rfl, ?_, rfl, ?_⟩, ?_⟩
  · show ¬ b ∈ (A.connections.filter (fun p => ¬ (p.1 = b))).map Prod.fst
    intro hmem
    exact absurd ((mem_keys_filter_ne _ _ _).mp hmem).2 (by simp)
  · show ¬ a ∈ B.inputs.filter (fun x => ¬ (x = a))
    intro hmem
    have := (List.mem_filter.mp hmem).2
    simp at this
  · have hnoedge : alookup ({ A with
        connections := A.connections.filter (fun p => ¬ (p.1 = b)) } : Neuron).connections
        b = none := alookup_filter_self A.connections b
    conv =>
      lhs
      rw [heapDisconnect]
    simp only [hlookA, hlookB, hnoedge]

/-- Witness for C7: disconnect and re-disconnect on the concrete
connected pair. -/
theorem claim_C7_witness :
    (heapDisconnect c7Heap "a" "b").2 = true ∧
    connectionsAt (some (heapDisconnect c7Heap "a" "b").1) "a" = some [] ∧
    inputsAt (some (heapDisconnect c7Heap "a" "b").1) "b" = some [] ∧
    heapDisconnect (heapDisconnect c7Heap "a" "b").1 "a" "b" =
      ((heapDisconnect c7Heap "a" "b").1, false) := by
  obtain ⟨hsucc, ⟨A1, B1, hA1, hB1, hconn, -, hinp, -⟩, hagain⟩ :=
    claim_C7 c7Heap "a" "b" c7aN c7bN (7/10) (by decide) rfl rfl rfl
  refine ⟨hsucc, ?_, ?_, hagain⟩
  · rw [show connectionsAt (some (heapDisconnect c7Heap "a" "b").1) "a" =
        some A1.connections from by simp only [connectionsAt, neuronAt, hA1]]
    rw [hconn]
    rfl
  · rw [show inputsAt (some (heapDisconnect c7Heap "a" "b").1) "b" =
        some B1.inputs from by simp only [inputsAt, neuronAt, hB1]]
    rw [hinp]
    rfl

/-- Claim C9: a `Network::processSignals` call made while one is already
in flight (the reentrancy flag is set, as it is for the whole duration of
a pass, including the process callbacks from which a re-entrant call
would be made) returns immediately with the network unchanged: no neuron
is processed, no callback runs, and no event is recorded. -/
theorem claim_C9 (fuel : Nat) (net : Network) (hbusy : net.processing = true) :
    networkProcessSignals fuel net = some net := by
  rw [networkProcessSignals.eq_def]
  simp [hbusy]

/-- Witness for C9: the guard on the concrete busy network whose callback
list even contains a re-entrant callback. -/
theorem claim_C9_witness : networkProcessSignals 5 c9NetBusy = some c9NetBusy :=
  claim_C9 5 c9NetBusy rfl

/-- Claim C10: `Network::reset` sets every registered neuron back to
RESTING and changes nothing else — potential, signal buffers, gates,
edges, back-references and the network's own lists are untouched — in
contrast with `Neuron::reset`, which also zeroes the potential and clears
both signal buffers. -/
theorem claim_C10 (net : Network) (k : String) (n : Neuron)
    (hn : alookup net.heap.neurons k = some n) :
    (∃ n', alookup net.resetN.heap.neurons k = some n' ∧
      n'.state = NeuronState.RESTING ∧
      n'.potential = n.potential ∧
      n'.inputSignals = n.inputSignals ∧
      n'.outputSignals = n.outputSignals ∧
      n'.gates = n.gates ∧
      n'.connections = n.connections ∧
      n'.inputs = n.inputs ∧
      n'.threshold = n.threshold) ∧
    net.resetN.inputNeurons = net.inputNeurons ∧
    net.resetN.outputNeurons = net.outputNeurons ∧
    net.resetN.heap.events = net.heap.events ∧
    ((Neuron.resetOne n).state = NeuronState.RESTING ∧
     (Neuron.resetOne n).potential = 0 ∧
     (Neuron.resetOne n).inputSignals = [] ∧
     (Neuron.resetOne n).outputSignals = [] ∧
     (Neuron.resetOne n).gates = n.gates ∧
     (Neuron.resetOne n).connections = n.connections) := by
  refine ⟨?_, rfl, rfl, rfl, rfl, rfl, rfl, rfl, rfl, rfl⟩
  refine ⟨{ n with state := NeuronState.RESTING }, ?_,
    rfl, rfl, rfl, rfl, rfl, rfl, rfl, rfl⟩
  simp only [Network.resetN]
  rw [alookup_mapval net.heap.neurons
      (fun m => { m with state := NeuronState.RESTING }) k, hn]
  rfl

/-- Witness for C10: the reset frame facts on the concrete network. -/
theorem claim_C10_witness :
    stateAt (some c10Net.resetN.heap) "a" = some NeuronState.RESTING ∧
    c10Net.resetN.inputNeurons = c10Net.inputNeurons := by
  obtain ⟨⟨n', hn', hstate, -⟩, hinp, -⟩ := claim_C10 c10Net "a" c2aN rfl
  constructor
  · simp only [stateAt, neuronAt, hn', hstate]
  · exact hinp
